import Mathlib

/-!
# Verification of the oh-my-opencode-dashboard derivation engine

Shallow embedding of the derivation engine of the dashboard: the storage
readers (files and sqlite variants), the main-session-view state machine,
background-task correlation, time-series bucketing, token-usage aggregation
and the stacked-segment chart helper, together with theorems about the
spec's claims.

Modelling conventions:
* JSON numbers are modelled as integers (`Int`): every numeric field in the
  records at hand is a millisecond timestamp or a counter.
* `JSON.parse` of a stored text payload is modelled by giving the already
  parsed value as `Option Json`, `none` standing for "not a string or the
  parse threw".
* JavaScript's stable `Array.prototype.sort` is modelled by `jsSort`, a
  stable insertion sort driven by an integer comparator.
* `String.prototype.localeCompare` is modelled as codepoint comparison
  (session/message ids are ASCII, where the two agree).
-/

namespace OmoDash

/-- JSON values as persisted in OpenCode storage. -/
inductive Json where
  | null
  | bool (b : Bool)
  | num (n : Int)
  | str (s : String)
  | arr (elems : List Json)
  | obj (fields : List (String × Json))

/-- Property lookup `j[k]` on a parsed JSON value: defined only on objects,
first field with the name wins. -/
def Json.get? : Json → String → Option Json
  | .obj fs, k => (fs.find? (fun f => f.1 == k)).map (·.2)
  | _, _ => none

/-- `typeof j === "string" ? j : null`. -/
def Json.asString? : Json → Option String
  | .str s => some s
  | _ => none

/-- `typeof j === "number" && Number.isFinite(j) ? j : null` (numbers are
modelled as finite integers). -/
def Json.asNum? : Json → Option Int
  | .num n => some n
  | _ => none

/-- `j && typeof j === "object"`: a non-null object (JS arrays also have
`typeof === "object"`). -/
def Json.isObjLike : Json → Bool
  | .obj _ => true
  | .arr _ => true
  | _ => false

/-- JS truthiness of an optional string field (absent or empty ⇒ falsy). -/
def jsTruthyStr : Option String → Bool
  | some s => s ≠ ""
  | none => false

/-! JS string primitives, modelled over the character list of a `String`
(the core byte-position-based `String` functions do not reduce inside the
kernel; these list-based versions do, and agree with the JS operations on
the ASCII data at hand). -/

def isJsSpace (c : Char) : Bool :=
  c = ' ' ∨ c = '\t' ∨ c = '\n' ∨ c = '\r'

/-- `String.prototype.trim` (ASCII whitespace). -/
def jsTrim (s : String) : String :=
  ⟨((s.data.dropWhile isJsSpace).reverse.dropWhile isJsSpace).reverse⟩

/-- `String.prototype.endsWith`. -/
def strEndsWith (s suffix : String) : Bool :=
  List.isSuffixOf suffix.data s.data

/-- `String.prototype.startsWith`. -/
def jsStartsWith (s pre : String) : Bool :=
  List.isPrefixOf pre.data s.data

/-- `String.prototype.slice(0, n)`. -/
def jsSlice (s : String) (n : Nat) : String := ⟨s.data.take n⟩

/-- `String.prototype.length` (code units; the data is ASCII). -/
def strLen (s : String) : Nat := s.data.length

def lowerChar (c : Char) : Char :=
  if 'A' ≤ c ∧ c ≤ 'Z' then Char.ofNat (c.toNat + 32) else c

/-- `String.prototype.toLowerCase` (ASCII). -/
def jsToLower (s : String) : String := ⟨s.data.map lowerChar⟩

def containsSub (pat : List Char) : List Char → Bool
  | [] => pat.isPrefixOf []
  | c :: rest => pat.isPrefixOf (c :: rest) || containsSub pat rest

/-- Message author role after row sanitation. -/
inductive Role where
  | user
  | assistant
deriving DecidableEq, Repr

/-- The four known tool lifecycle statuses. -/
inductive ToolStatus where
  | pending
  | running
  | completed
  | error
deriving DecidableEq, Repr

def ToolStatus.toStr : ToolStatus → String
  | .pending => "pending"
  | .running => "running"
  | .completed => "completed"
  | .error => "error"

/-- `isToolStatus` from storage-backend.ts: which strings denote a status. -/
def parseToolStatus : String → Option ToolStatus
  | "pending" => some .pending
  | "running" => some .running
  | "completed" => some .completed
  | "error" => some .error
  | _ => none

/-- A tool part is in flight (`state.status ∈ {pending, running}`). -/
def ToolStatus.isActive : ToolStatus → Bool
  | .pending => true
  | .running => true
  | _ => false

/-- Sanitized session metadata (`SessionMetadata` in session.ts). -/
structure SessionMetadata where
  id : String
  projectID : String
  directory : String
  title : Option String
  parentID : Option String
  created : Int
  updated : Int
deriving DecidableEq, Repr

/-- Token counters of a message (`tokens` field, `cache.read`/`cache.write`
flattened the way the aggregator reads them). -/
structure TokensRec where
  tokIn : Int
  tokOut : Int
  reasoning : Int
  cacheRead : Int
  cacheWrite : Int
deriving DecidableEq, Repr

/-- Sanitized message row (`StoredMessageMeta`); the sqlite reader always
produces a numeric `created`, and keeps the payload's agent/provider/model
/tokens fields (the source spreads the raw record). -/
structure StoredMessageMeta where
  id : String
  sessionID : String
  role : Role
  created : Int
  completed : Option Int
  agent : Option Json
  providerID : Option String
  modelID : Option String
  tokens : Option TokensRec

/-- Sanitized tool part (`StoredToolPart`): the validated projection plus the
raw `state.time` object kept for `readStartTimeFromToolPart`. -/
structure StoredToolPart where
  id : String
  messageID : String
  sessionID : String
  callID : String
  tool : String
  status : ToolStatus
  stateInput : Json
  stateTime : Option Json

/-! ## JS-style stable sort

`Array.prototype.sort(cmp)` for a consistent comparator is a stable sort:
`jsSort` inserts each element after every already placed element that does
not compare strictly greater. -/

/-- Insert `x` after all elements `y` with `cmp y x ≤ 0` (stable position). -/
def jsInsert (cmp : α → α → Int) (x : α) : List α → List α
  | [] => [x]
  | y :: ys => if cmp y x ≤ 0 then y :: jsInsert cmp x ys else x :: y :: ys

/-- Stable sort by an integer comparator, modelling `Array.prototype.sort`. -/
def jsSort (cmp : α → α → Int) (l : List α) : List α :=
  l.foldl (fun acc x => jsInsert cmp x acc) []

/-- A comparator is total when every pair compares `≤ 0` one way round. -/
def IsCmpTotal (cmp : α → α → Int) : Prop :=
  ∀ a b, cmp a b ≤ 0 ∨ cmp b a ≤ 0

/-- Transitivity of the `≤ 0` relation induced by a comparator. -/
def IsCmpTrans (cmp : α → α → Int) : Prop :=
  ∀ a b c, cmp a b ≤ 0 → cmp b c ≤ 0 → cmp a c ≤ 0

theorem jsInsert_mem (cmp : α → α → Int) (x : α) (l : List α) (z : α) :
    z ∈ jsInsert cmp x l ↔ z = x ∨ z ∈ l := by
  induction l with
  | nil => simp [jsInsert]
  | cons y ys ih =>
      by_cases h : cmp y x ≤ 0
      · simp only [jsInsert, if_pos h, List.mem_cons, ih]
        tauto
      · simp only [jsInsert, if_neg h, List.mem_cons]

theorem jsSort_mem (cmp : α → α → Int) (l : List α) (z : α) :
    z ∈ jsSort cmp l ↔ z ∈ l := by
  suffices h : ∀ acc : List α,
      z ∈ l.foldl (fun acc x => jsInsert cmp x acc) acc ↔ z ∈ acc ∨ z ∈ l by
    have := h []
    simpa [jsSort] using this
  induction l with
  | nil => intro acc; simp
  | cons y ys ih =>
      intro acc
      simp only [List.foldl_cons, ih, jsInsert_mem, List.mem_cons]
      tauto

theorem jsInsert_pairwise (cmp : α → α → Int)
    (htot : IsCmpTotal cmp) (htr : IsCmpTrans cmp) (x : α) (l : List α)
    (hl : l.Pairwise (fun a b => cmp a b ≤ 0)) :
    (jsInsert cmp x l).Pairwise (fun a b => cmp a b ≤ 0) := by
  induction l with
  | nil => simp [jsInsert]
  | cons y ys ih =>
      rcases List.pairwise_cons.mp hl with ⟨hy, hys⟩
      by_cases h : cmp y x ≤ 0
      · have hrec := ih hys
        simp only [jsInsert, if_pos h]
        refine List.pairwise_cons.mpr ⟨?_, hrec⟩
        intro z hz
        rcases (jsInsert_mem cmp x ys z).mp hz with rfl | hz'
        · exact h
        · exact hy z hz'
      · have hxy : cmp x y ≤ 0 := (htot x y).resolve_right h
        simp only [jsInsert, if_neg h]
        refine List.pairwise_cons.mpr ⟨?_, hl⟩
        intro z hz
        rcases List.mem_cons.mp hz with rfl | hz'
        · exact hxy
        · exact htr x y z hxy (hy z hz')

theorem jsSort_pairwise (cmp : α → α → Int)
    (htot : IsCmpTotal cmp) (htr : IsCmpTrans cmp) (l : List α) :
    (jsSort cmp l).Pairwise (fun a b => cmp a b ≤ 0) := by
  suffices h : ∀ acc : List α, acc.Pairwise (fun a b => cmp a b ≤ 0) →
      (l.foldl (fun acc x => jsInsert cmp x acc) acc).Pairwise
        (fun a b => cmp a b ≤ 0) by
    exact h [] (by simp)
  induction l with
  | nil => intro acc hacc; simpa using hacc
  | cons y ys ih =>
      intro acc hacc
      exact ih _ (jsInsert_pairwise cmp htot htr y acc hacc)

/-- The head of a `jsSort`ed list compares `≤ 0` with every element. -/
theorem jsSort_head_min (cmp : α → α → Int)
    (htot : IsCmpTotal cmp) (htr : IsCmpTrans cmp) (l : List α)
    (x : α) (xs : List α) (hx : jsSort cmp l = x :: xs) :
    ∀ y ∈ l, cmp x y ≤ 0 ∨ x = y := by
  intro y hy
  have hmem : y ∈ jsSort cmp l := (jsSort_mem cmp l y).mpr hy
  rw [hx] at hmem
  rcases List.mem_cons.mp hmem with rfl | hmem'
  · exact Or.inr rfl
  · have hp := jsSort_pairwise cmp htot htr l
    rw [hx] at hp
    exact Or.inl ((List.pairwise_cons.mp hp).1 y hmem')

theorem jsSort_eq_nil (cmp : α → α → Int) (l : List α) :
    jsSort cmp l = [] ↔ l = [] := by
  constructor
  · intro h
    cases l with
    | nil => rfl
    | cons y ys =>
        exfalso
        have : y ∈ jsSort cmp (y :: ys) := (jsSort_mem cmp _ y).mpr (by simp)
        rw [h] at this
        simp at this
  · intro h; simp [h, jsSort]

/-- Codepoint-lexicographic comparison of character lists. -/
def cmpCharList : List Char → List Char → Int
  | [], [] => 0
  | [], _ :: _ => -1
  | _ :: _, [] => 1
  | a :: as, b :: bs =>
      if a.toNat < b.toNat then -1
      else if b.toNat < a.toNat then 1
      else cmpCharList as bs

/-- Integer comparator from the codepoint order on strings, modelling
`localeCompare` (and JS `<`/`>`) on ASCII ids. -/
def cmpStr (a b : String) : Int := cmpCharList a.data b.data

theorem cmpCharList_swap (a b : List Char) :
    cmpCharList b a = -cmpCharList a b := by
  induction a generalizing b with
  | nil => cases b <;> rfl
  | cons x xs ih =>
      cases b with
      | nil => rfl
      | cons y ys =>
          unfold cmpCharList
          rcases Nat.lt_trichotomy x.toNat y.toNat with h | h | h
          · rw [if_pos h, if_neg (Nat.lt_asymm h), if_pos h]
            decide
          · rw [if_neg (by omega), if_neg (by omega), if_neg (by omega),
              if_neg (by omega)]
            exact ih ys
          · rw [if_pos h, if_neg (Nat.lt_asymm h), if_pos h]

theorem cmpCharList_trans {a b c : List Char}
    (hab : cmpCharList a b ≤ 0) (hbc : cmpCharList b c ≤ 0) :
    cmpCharList a c ≤ 0 := by
  induction a generalizing b c with
  | nil => cases c <;> simp [cmpCharList]
  | cons x xs ih =>
      cases b with
      | nil => simp [cmpCharList] at hab
      | cons y ys =>
          cases c with
          | nil => simp [cmpCharList] at hbc
          | cons z zs =>
              unfold cmpCharList at hab hbc ⊢
              rcases Nat.lt_trichotomy x.toNat z.toNat with h | h | h
              · rw [if_pos h]; omega
              · rw [if_neg (by omega), if_neg (by omega)]
                rcases Nat.lt_trichotomy x.toNat y.toNat with h1 | h1 | h1
                · rcases Nat.lt_trichotomy y.toNat z.toNat with h2 | h2 | h2
                  · omega
                  · omega
                  · rw [if_neg (by omega), if_pos h2] at hbc; omega
                · rw [if_neg (by omega), if_neg (by omega)] at hab
                  rcases Nat.lt_trichotomy y.toNat z.toNat with h2 | h2 | h2
                  · omega
                  · rw [if_neg (by omega), if_neg (by omega)] at hbc
                    exact ih hab hbc
                  · omega
                · rw [if_neg (Nat.lt_asymm h1), if_pos h1] at hab; omega
              · rcases Nat.lt_trichotomy x.toNat y.toNat with h1 | h1 | h1
                · rcases Nat.lt_trichotomy y.toNat z.toNat with h2 | h2 | h2
                  · omega
                  · omega
                  · rw [if_neg (by omega), if_pos h2] at hbc; omega
                · rcases Nat.lt_trichotomy y.toNat z.toNat with h2 | h2 | h2
                  · omega
                  · omega
                  · rw [if_neg (by omega), if_pos h2] at hbc; omega
                · rw [if_neg (Nat.lt_asymm h1), if_pos h1] at hab; omega

theorem cmpStr_total (a b : String) : cmpStr a b ≤ 0 ∨ cmpStr b a ≤ 0 := by
  unfold cmpStr
  rw [cmpCharList_swap]
  omega

theorem cmpStr_trans {a b c : String} (hab : cmpStr a b ≤ 0)
    (hbc : cmpStr b c ≤ 0) : cmpStr a c ≤ 0 :=
  cmpCharList_trans hab hbc

/-! ## SQLite storage model (storage-backend.ts)

A database is the list of raw rows of the three required tables. Column
values reach the readers as dynamically typed values; `Option` fields model
the `asString`/`asFiniteNumber` guards (`none` = NULL or wrong type), and
the `data` column carries its parse result (`none` = not text or
`JSON.parse` threw). -/

/-- Raw row of the `session` table. -/
structure SessionRow where
  id : Option String
  projectId : Option String
  parentId : Option String
  directory : Option String
  title : Option String
  timeCreated : Option Int
  timeUpdated : Option Int

/-- Raw row of the `message` table. -/
structure MsgRow where
  id : Option String
  sessionId : Option String
  timeCreated : Option Int
  data : Option Json

/-- Raw row of the `part` table. -/
structure PartRow where
  id : Option String
  messageId : Option String
  sessionId : Option String
  timeCreated : Option Int
  data : Option Json

/-- An opened, readable sqlite database (db-level failures are upstream of
the row-level sanitation the claims are about). -/
structure SqliteDb where
  sessions : List SessionRow
  messages : List MsgRow
  parts : List PartRow

/-- SQLite `ORDER BY col ASC` places NULLs first, then values in order. -/
def cmpOptIntAsc : Option Int → Option Int → Int
  | none, none => 0
  | none, some _ => -1
  | some _, none => 1
  | some a, some b => if a < b then -1 else if b < a then 1 else 0

def cmpOptStrAsc : Option String → Option String → Int
  | none, none => 0
  | none, some _ => -1
  | some _, none => 1
  | some a, some b => cmpStr a b

/-- `ORDER BY col DESC` is the exact reverse of the ASC order (NULLs last). -/
def cmpOptIntDesc (a b : Option Int) : Int := cmpOptIntAsc b a

def cmpOptStrDesc (a b : Option String) : Int := cmpOptStrAsc b a

/-- Lexicographic combination of comparators. -/
def cmpLex (c1 c2 : α → α → Int) (a b : α) : Int :=
  if c1 a b = 0 then c2 a b else c1 a b

/-- `readAllSessionMetasSqlite` row sanitation: id/project_id/directory must
be strings, timestamps default (`?? 0`, `?? created`), truthy title/parentID
kept. -/
def sanitizeSessionRow (r : SessionRow) : Option SessionMetadata :=
  match r.id, r.projectId, r.directory with
  | some id, some projectID, some directory =>
      if id = "" ∨ projectID = "" ∨ directory = "" then none
      else
        let created := r.timeCreated.getD 0
        let updated := r.timeUpdated.getD created
        some {
          id := id
          projectID := projectID
          directory := directory
          title := if jsTruthyStr r.title then r.title else none
          parentID := if jsTruthyStr r.parentId then r.parentId else none
          created := created
          updated := updated
        }
  | _, _, _ => none

/-- `readAllSessionMetasSqlite`: `SELECT … FROM session ORDER BY
time_updated DESC, id DESC`, then per-row sanitation. -/
def readAllSessionMetasSqlite (db : SqliteDb) : List SessionMetadata :=
  (jsSort
      (cmpLex (fun a b => cmpOptIntDesc a.timeUpdated b.timeUpdated)
        (fun a b => cmpOptStrDesc a.id b.id))
      db.sessions).filterMap sanitizeSessionRow

/-- `readSessionExistsSqlite`: `SELECT id FROM session WHERE id = ? LIMIT 1`
and the result's id must be a string. -/
def readSessionExistsSqlite (db : SqliteDb) (sessionId : String) : Bool :=
  (db.sessions.find? (fun r => r.id == some sessionId)).isSome

/-- Extraction of a `tokens` payload as the aggregator reads it
(`input`/`output`/`reasoning` plus `cache.read`/`cache.write`, missing
counters read as 0). -/
def parseTokens (j : Json) : Option TokensRec :=
  if j.isObjLike then
    let cache := (j.get? "cache").getD .null
    some {
      tokIn := ((j.get? "input").bind Json.asNum?).getD 0
      tokOut := ((j.get? "output").bind Json.asNum?).getD 0
      reasoning := ((j.get? "reasoning").bind Json.asNum?).getD 0
      cacheRead := ((cache.get? "read").bind Json.asNum?).getD 0
      cacheWrite := ((cache.get? "write").bind Json.asNum?).getD 0
    }
  else none

/-- `readRecentMessageMetasSqlite` row sanitation: id/session_id/data must
be strings, the payload must parse to an object with a valid `role`;
`created` falls back from `data.time.created` to the `time_created` column
to 0. The `...rec` spread keeps the payload's raw `agent` value (the
string override `...(agent ? { agent } : {})` only re-adds the value the
spread already put there), so `agent` is the raw JSON value, absent iff
the payload has no `agent` key. -/
def sanitizeMsgRow (r : MsgRow) : Option StoredMessageMeta :=
  match r.id, r.sessionId, r.data with
  | some id, some sessionID, some j =>
      if id = "" ∨ sessionID = "" then none
      else if j.isObjLike then
        match (j.get? "role").bind Json.asString? with
        | some roleStr =>
            let role? : Option Role :=
              if roleStr = "user" then some .user
              else if roleStr = "assistant" then some .assistant
              else none
            role?.map fun role =>
              let time := (j.get? "time").getD .null
              let timeObj := time.isObjLike
              let createdFromData :=
                if timeObj then (time.get? "created").bind Json.asNum? else none
              let created := (createdFromData.orElse fun _ => r.timeCreated).getD 0
              let completed :=
                if timeObj then (time.get? "completed").bind Json.asNum? else none
              { id := id
                sessionID := sessionID
                role := role
                created := created
                completed := completed
                agent := j.get? "agent"
                providerID := (j.get? "providerID").bind Json.asString?
                modelID := (j.get? "modelID").bind Json.asString?
                tokens := (j.get? "tokens").bind parseTokens }
        | none => none
      else none
  | _, _, _ => none

/-- JS re-sort of sanitized message rows: created descending, then id
descending (`String(b.id).localeCompare(String(a.id))`). -/
def cmpMsgDesc (a b : StoredMessageMeta) : Int :=
  if b.created ≠ a.created then b.created - a.created else cmpStr b.id a.id

/-- `readRecentMessageMetasSqlite`: `WHERE session_id = ? ORDER BY
time_created DESC, id DESC LIMIT ?`, sanitize, then re-sort by the payload
`created` (desc, id desc). -/
def readRecentMessageMetasSqlite (db : SqliteDb) (sessionId : String)
    (limit : Nat) : List StoredMessageMeta :=
  let sqlRows :=
    (jsSort
        (cmpLex (fun a b => cmpOptIntDesc a.timeCreated b.timeCreated)
          (fun a b => cmpOptStrDesc a.id b.id))
        (db.messages.filter (fun r => r.sessionId == some sessionId))).take limit
  jsSort cmpMsgDesc (sqlRows.filterMap sanitizeMsgRow)

/-- `readToolPartsForMessagesSqlite` row sanitation: payload must be an
object with `type === "tool"`, non-empty `callID` and `tool` strings, a
known `state.status` and a non-null object `state.input`. -/
def sanitizePartRow (r : PartRow) : Option StoredToolPart :=
  match r.id, r.messageId, r.sessionId, r.data with
  | some id, some messageID, some sessionID, some j =>
      if id = "" ∨ messageID = "" ∨ sessionID = "" then none
      else if j.isObjLike then
        match j.get? "type" with
        | some (.str "tool") =>
            let callID? := (j.get? "callID").bind Json.asString?
            let tool? := (j.get? "tool").bind Json.asString?
            let state := (j.get? "state").getD .null
            if state.isObjLike then
              match callID?, tool?,
                  ((state.get? "status").bind Json.asString?).bind
                    parseToolStatus,
                  state.get? "input" with
              | some callID, some tool, some status, some inputJ =>
                  if callID ≠ "" ∧ tool ≠ "" ∧ inputJ.isObjLike then
                    some {
                      id := id
                      messageID := messageID
                      sessionID := sessionID
                      callID := callID
                      tool := tool
                      status := status
                      stateInput := inputJ
                      stateTime := state.get? "time"
                    }
                  else none
              | _, _, _, _ => none
            else none
        | _ => none
      else none
  | _, _, _, _ => none

/-- `readToolPartsForMessagesSqlite`: `WHERE message_id IN (…) ORDER BY
message_id ASC, time_created ASC, id ASC`, then per-row sanitation
(malformed rows silently dropped). -/
def readToolPartsForMessagesSqlite (db : SqliteDb)
    (messageIds : List String) : List StoredToolPart :=
  if messageIds = [] then []
  else
    (jsSort
        (cmpLex (fun a b => cmpOptStrAsc a.messageId b.messageId)
          (cmpLex (fun a b => cmpOptIntAsc a.timeCreated b.timeCreated)
            (fun a b => cmpOptStrAsc a.id b.id)))
        (db.parts.filter fun r =>
          match r.messageId with
          | some m => messageIds.contains m
          | none => false)).filterMap sanitizePartRow

/-- `mapToolPartsByMessage`: grouping by `messageID` preserving the incoming
order within each key. -/
def partsForMessage (parts : List StoredToolPart) (messageId : String) :
    List StoredToolPart :=
  parts.filter (fun p => p.messageID == messageId)

/-! ## Main session view (sqlite variant, sqlite-derive.ts) -/

/-- Live status of the main session. The files variant's view type omits
`thinking`; its implementation never produces that constructor. -/
inductive MainStatus where
  | busy
  | idle
  | unknown
  | running_tool
  | thinking
deriving DecidableEq, Repr

/-- `MainSessionView` as returned by the sqlite variant. The `...rec`
spread of `readRecentMessageMetasSqlite` keeps the raw `agent` payload, so
the view's `agent` is an arbitrary JSON value, not necessarily a string. -/
structure MainSessionView where
  agent : Json
  currentTool : Option String
  currentModel : Option String
  lastUpdated : Option Int
  sessionLabel : String
  status : MainStatus

/-- Modelled from the spec: `pickLatestModelString` lives in
`src/ingest/model.ts`, which is not among the provided sources. Per §4.4 it
scans the messages (given newest-first) for the most recent
`providerID`/`modelID` pair and renders `"{providerID}/{modelID}"`; absent
if none is found. -/
def pickLatestModelString (metas : List StoredMessageMeta) : Option String :=
  (metas.find? fun m => m.providerID.isSome && m.modelID.isSome).bind fun m =>
    m.providerID.bind fun p => m.modelID.map fun mo => p ++ "/" ++ mo

/-- Inner loop of the sqlite active-tool scan: parts of one message are
walked newest→oldest (index from the end) for a pending/running part. -/
def findActiveInParts (parts : List StoredToolPart) :
    Option (String × ToolStatus) :=
  (parts.reverse.find? fun p => p.status.isActive).map fun p =>
    (p.tool, p.status)

/-- Outer loop of the sqlite active-tool scan: messages newest→oldest,
stopping at the first message with a pending/running part. -/
def findActiveTool (pbm : String → List StoredToolPart) :
    List StoredMessageMeta → Option (String × ToolStatus)
  | [] => none
  | m :: rest =>
      match findActiveInParts (pbm m.id) with
      | some t => some t
      | none => findActiveTool pbm rest

/-- JS `??`: `none` models `undefined` (no recent message or no `agent`
key) and a JSON `null` also falls through to the default. -/
def jsCoalesce (v : Option Json) (d : Json) : Json :=
  match v with
  | none => d
  | some .null => d
  | some v => v

/-- Body of `getMainSessionViewSqlite` after the storage reads.
`agent` is `recent?.agent ?? "unknown"`: the raw payload value. -/
def computeMainViewSqlite (sessionId : String)
    (sessionMeta : Option SessionMetadata) (nowMs : Int)
    (metas : List StoredMessageMeta)
    (pbm : String → List StoredToolPart) : MainSessionView :=
  let recent := metas.head?
  let lastUpdated := recent.map (·.created)
  let sessionLabel := (sessionMeta.bind (·.title)).getD sessionId
  let agent := jsCoalesce (recent.bind (·.agent)) (.str "unknown")
  let currentModel := pickLatestModelString metas
  let activeTool := findActiveTool pbm metas
  let status : MainStatus :=
    if (activeTool.map fun t => t.2.isActive).getD false then .running_tool
    else
      match recent with
      | some r =>
          if r.role = .assistant ∧ r.completed = none then .thinking
          else if nowMs - r.created ≤ 15000 then .busy else .idle
      | none => .unknown
  { agent := agent
    currentTool := activeTool.map (·.1)
    currentModel := currentModel
    lastUpdated := lastUpdated
    sessionLabel := sessionLabel
    status := status }

/-- The ≤200 recent messages of a session (sqlite). -/
def sqliteSessionMessages (db : SqliteDb) (sessionId : String) :
    List StoredMessageMeta :=
  readRecentMessageMetasSqlite db sessionId 200

/-- The tool parts of those messages (sqlite). -/
def sqliteSessionParts (db : SqliteDb) (sessionId : String) :
    List StoredToolPart :=
  readToolPartsForMessagesSqlite db
    ((sqliteSessionMessages db sessionId).map (·.id))

/-- `getMainSessionViewSqlite`. -/
def getMainSessionViewSqlite (db : SqliteDb) (sessionId : String)
    (sessionMeta : Option SessionMetadata) (nowMs : Int) : MainSessionView :=
  computeMainViewSqlite sessionId sessionMeta nowMs
    (sqliteSessionMessages db sessionId)
    (partsForMessage (sqliteSessionParts db sessionId))

/-- Whether any tool part across the recent messages of a session is
pending/running (sqlite backend). -/
def anyActiveToolSqlite (db : SqliteDb) (sessionId : String) : Bool :=
  (sqliteSessionMessages db sessionId).any fun m =>
    (partsForMessage (sqliteSessionParts db sessionId) m.id).any
      (·.status.isActive)

/-! ## Files storage model (session.ts, background-tasks.ts)

The storage directories are modelled as association lists: a session's
message directory (absent = the directory does not exist, including the
nested-layout fallback of `getMessageDir`) and a message's part directory.
Message files carry their parse result projected to the fields the engine
reads (`none` = unreadable/bad JSON); part files carry the raw parsed JSON
value. -/

/-- Parse result of one message JSON file, projected to the consumed
fields. -/
structure FileMsg where
  id : Option String
  role : Option Role
  created : Option Int
  completed : Option Int
  agent : Option String
deriving DecidableEq, Repr

/-- A file in a message directory. -/
structure MsgFile where
  name : String
  mtime : Int
  content : Option FileMsg
deriving DecidableEq, Repr

/-- A file in a part directory. -/
structure PartFile where
  name : String
  content : Option Json

/-- The files storage backend state. Session metadata files are given
already parsed and well-formed (unreadable ones are simply absent). -/
structure FilesStorage where
  sessionMetas : List SessionMetadata
  messageDirs : List (String × List MsgFile)
  partDirs : List (String × List PartFile)

/-- `getMessageDir`: the message directory of a session, if it exists. -/
def msgDir? (st : FilesStorage) (sessionId : String) :
    Option (List MsgFile) :=
  (st.messageDirs.find? (·.1 == sessionId)).map (·.2)

def partDir? (st : FilesStorage) (messageId : String) :
    Option (List PartFile) :=
  (st.partDirs.find? (·.1 == messageId)).map (·.2)

/-- `readdirSync(...).filter(f => f.endsWith(".json"))`. -/
def listJsonMsgFiles (files : List MsgFile) : List MsgFile :=
  files.filter (fun f => strEndsWith f.name ".json")

/-- Rank directory entries by mtime descending and keep the first
`maxMessages`. -/
def rankByMtime (files : List MsgFile) (maxMessages : Nat) : List MsgFile :=
  (jsSort (fun a b => b.mtime - a.mtime) files).take maxMessages

/-- `readMostRecentMessageMeta`: among the ≤`maxMessages` ranked files, the
parseable meta with the largest (`time.created ?? 0`, `String(id ?? "")`)
pair. -/
def readMostRecentMessageMetaF (files : List MsgFile) (maxMessages : Nat) :
    Option FileMsg :=
  ((rankByMtime (listJsonMsgFiles files) maxMessages).foldl
      (fun best item =>
        match item.content with
        | none => best
        | some meta =>
            let created := meta.created.getD 0
            let mid := meta.id.getD ""
            match best with
            | none => some (created, mid, meta)
            | some (bc, bid, _) =>
                if created > bc ∨ (created = bc ∧ cmpStr mid bid > 0) then
                  some (created, mid, meta)
                else best)
      none).map (fun b => b.2.2)

/-- `readRecentMessageMetas` (session.ts): ranked files parsed, then sorted
by (`created` desc, id desc). -/
def readRecentMessageMetasF (files : List MsgFile) (maxMessages : Nat) :
    List FileMsg :=
  let metas := (rankByMtime (listJsonMsgFiles files) maxMessages).filterMap
    fun item => item.content.map fun m => (m.created.getD 0, m.id.getD "", m)
  (jsSort
      (fun a b : Int × String × FileMsg =>
        if b.1 ≠ a.1 then b.1 - a.1 else cmpStr b.2.1 a.2.1)
      metas).map (·.2.2)

/-- The recent messages of a session (files backend). -/
def filesRecentMsgs (st : FilesStorage) (sessionId : String) : List FileMsg :=
  match msgDir? st sessionId with
  | none => []
  | some files => readRecentMessageMetasF files 200

/-- `readLastToolPart`: the part files sorted by name, walked newest-first;
the first parseable one with `type === "tool"` and a string `tool` yields
`(tool, state?.status ?? "unknown")`. -/
def readLastToolPartF (st : FilesStorage) (messageId : String) :
    Option (String × String) :=
  match partDir? st messageId with
  | none => none
  | some files =>
      let sorted := jsSort (fun a b => cmpStr a.name b.name)
        (files.filter (fun f => strEndsWith f.name ".json"))
      sorted.reverse.findSome? fun file =>
        match file.content with
        | none => none
        | some j =>
            match j.get? "type", (j.get? "tool").bind Json.asString? with
            | some (.str "tool"), some tool =>
                let status :=
                  (((j.get? "state").getD .null).get? "status").bind
                    Json.asString?
                some (tool, status.getD "unknown")
            | _, _ => none

/-- The files active-tool scan: messages newest→oldest; a message's *last*
tool part is inspected, and only a pending/running one stops the scan. -/
def findActiveToolF (st : FilesStorage) :
    List FileMsg → Option (String × String)
  | [] => none
  | m :: rest =>
      match readLastToolPartF st (m.id.getD "") with
      | some t =>
          if t.2 == "pending" || t.2 == "running" then some t
          else findActiveToolF st rest
      | none => findActiveToolF st rest

/-- `MainSessionView` of the files variant (session.ts): no `currentModel`
field and no `thinking` state. -/
structure MainSessionViewF where
  agent : String
  currentTool : Option String
  lastUpdated : Option Int
  sessionLabel : String
  status : MainStatus
deriving DecidableEq, Repr

/-- `getMainSessionView` (files). -/
def getMainSessionViewF (st : FilesStorage) (sessionId : String)
    (sessionMeta : Option SessionMetadata) (nowMs : Int) : MainSessionViewF :=
  let recent :=
    match msgDir? st sessionId with
    | none => none
    | some files => readMostRecentMessageMetaF files 200
  let lastUpdated := recent.bind (·.created)
  let sessionLabel := (sessionMeta.bind (·.title)).getD sessionId
  let agent := (recent.bind (·.agent)).getD "unknown"
  let activeTool := findActiveToolF st (filesRecentMsgs st sessionId)
  let status : MainStatus :=
    if (activeTool.map fun t => t.2 == "pending" || t.2 == "running").getD
        false then
      .running_tool
    else
      match lastUpdated with
      | some lu => if nowMs - lu ≤ 15000 then .busy else .idle
      | none => .unknown
  { agent := agent
    currentTool := activeTool.map (·.1)
    lastUpdated := lastUpdated
    sessionLabel := sessionLabel
    status := status }

/-- The last (by filename) tool part of some recent message is
pending/running (what the files implementation actually reacts to). -/
def lastPartActiveF (st : FilesStorage) (sessionId : String) : Bool :=
  (filesRecentMsgs st sessionId).any fun m =>
    ((readLastToolPartF st (m.id.getD "")).map fun t =>
      t.2 == "pending" || t.2 == "running").getD false

/-- Claim-side reading of §4.4 rule 1 for the files backend: *any* tool
part (any part file that parses with `type === "tool"`) across the recent
messages has status pending/running. -/
def claimAnyActivePartF (st : FilesStorage) (sessionId : String) : Bool :=
  (filesRecentMsgs st sessionId).any fun m =>
    match partDir? st (m.id.getD "") with
    | none => false
    | some files =>
        files.any fun f =>
          match f.content with
          | some j =>
              match j.get? "type",
                  (((j.get? "state").getD .null).get? "status").bind
                    Json.asString? with
              | some (.str "tool"), some s =>
                  s == "pending" || s == "running"
              | _, _ => false
          | none => false

/-! ## Background task derivation (sqlite-derive.ts / background-tasks.ts) -/

/-- `Math.floor(a / b)` for integer operands and positive divisor. -/
def jsFloorDiv (a b : Int) : Int := Int.fdiv a b

/-- `formatElapsed`: largest applicable unit among days/hours/minutes/
seconds. -/
def formatElapsed (ms : Int) : String :=
  let totalSeconds := max 0 (jsFloorDiv ms 1000)
  let seconds := totalSeconds % 60
  let totalMinutes := jsFloorDiv totalSeconds 60
  let minutes := totalMinutes % 60
  let totalHours := jsFloorDiv totalMinutes 60
  let hours := totalHours % 24
  let days := jsFloorDiv totalHours 24
  if days > 0 then
    if hours > 0 then s!"{days}d{hours}h" else s!"{days}d"
  else if totalHours > 0 then
    if minutes > 0 then s!"{totalHours}h{minutes}m" else s!"{totalHours}h"
  else if totalMinutes > 0 then
    if seconds > 0 then s!"{totalMinutes}m{seconds}s" else s!"{totalMinutes}m"
  else s!"{seconds}s"

def pad2 (n : Int) : String :=
  if n < 10 then "0" ++ toString n else toString n

def pad4 (n : Int) : String :=
  if n < 10 then "000" ++ toString n
  else if n < 100 then "00" ++ toString n
  else if n < 1000 then "0" ++ toString n
  else toString n

/-- Proleptic Gregorian civil date from days since the Unix epoch
(the arithmetic behind `Date.prototype.toISOString`). -/
def civilFromDays (z0 : Int) : Int × Int × Int :=
  let z := z0 + 719468
  let era := Int.fdiv z 146097
  let doe := z - era * 146097
  let yoe :=
    Int.fdiv (doe - Int.fdiv doe 1460 + Int.fdiv doe 36524
      - Int.fdiv doe 146096) 365
  let y := yoe + era * 400
  let doy := doe - (365 * yoe + Int.fdiv yoe 4 - Int.fdiv yoe 100)
  let mp := Int.fdiv (5 * doy + 2) 153
  let d := doy - Int.fdiv (153 * mp + 2) 5 + 1
  let m := mp + (if mp < 10 then 3 else -9)
  (y + (if m ≤ 2 then 1 else 0), m, d)

/-- `formatIsoNoMs`: `new Date(ts).toISOString()` with the milliseconds
stripped. -/
def formatIsoNoMs (ts : Int) : String :=
  let days := Int.fdiv ts 86400000
  let msOfDay := ts - days * 86400000
  let ymd := civilFromDays days
  let y4 := pad4 ymd.1
  let mo2 := pad2 ymd.2.1
  let d2 := pad2 ymd.2.2
  let h2 := pad2 (Int.fdiv msOfDay 3600000)
  let mi2 := pad2 (Int.fdiv (msOfDay % 3600000) 60000)
  let s2 := pad2 (Int.fdiv (msOfDay % 60000) 1000)
  s!"{y4}-{mo2}-{d2}T{h2}:{mi2}:{s2}Z"

/-- `formatTimeline`. -/
def formatTimeline (startAt : Option Int) (endAtMs : Int) : String :=
  match startAt with
  | none => ""
  | some s => formatIsoNoMs s ++ ": " ++ formatElapsed (endAtMs - s)

/-- `clampString`: trim, drop empty, cut to `maxLen` (non-strings are
`none`). -/
def clampString (value : Option String) (maxLen : Nat) : Option String :=
  match value with
  | none => none
  | some v =>
      let s := jsTrim v
      if s = "" then none
      else if strLen s ≤ maxLen then some s else some (jsSlice s maxLen)

/-- `value.includes(pat)` on strings. -/
def strIncludes (s pat : String) : Bool :=
  if pat = "" then true else containsSub pat.data s.data

/-- `readStartTimeFromToolPart`: `state.time.start` when it is a finite
number. -/
def readStartTimeFromToolPart (p : StoredToolPart) : Option Int :=
  match p.stateTime with
  | some t => if t.isObjLike then (t.get? "start").bind Json.asNum? else none
  | none => none

/-- `TASK_TOOL_NAMES`. -/
def isTaskTool (toolName : String) : Bool :=
  toolName == "delegate_task" || toolName == "task"

/-- Status of a background-task row. -/
inductive BgStatus where
  | queued
  | running
  | completed
  | error
  | unknown
deriving DecidableEq, Repr

def BgStatus.toStr : BgStatus → String
  | .queued => "queued"
  | .running => "running"
  | .completed => "completed"
  | .error => "error"
  | .unknown => "unknown"

/-- `BackgroundTaskRow`. -/
structure BackgroundTaskRow where
  id : String
  description : String
  agent : String
  status : BgStatus
  toolCalls : Option Nat
  lastTool : Option String
  lastModel : Option String
  timeline : String
  sessionId : Option String
deriving DecidableEq, Repr

/-- Arguments of `findBackgroundSessionId`/`findTaskSessionId`. -/
structure FindSessionOpts where
  allSessionMetas : List SessionMetadata
  parentSessionId : String
  description : String
  subagentType : Option String
  category : Option String
  startedAt : Int

/-- `typeof v === "string" && v.trim() ? v.trim() : null`. -/
def trimmedNonempty (o : Option String) : Option String :=
  match o with
  | some s => let t := jsTrim s; if t ≠ "" then some t else none
  | none => none

/-- The candidate child sessions of a correlation search: same parent and
`time.created` inside `[startedAt-10000, startedAt+15*60000]`. -/
def bgCandidates (all : List SessionMetadata) (parent : String)
    (startedAt : Int) : List SessionMetadata :=
  all.filter fun m =>
    m.parentID == some parent
      && decide (startedAt - 10000 ≤ m.created)
      && decide (m.created ≤ startedAt + 15 * 60000)

/-- Title preference: exact matches, else prefix matches, both over the
candidate set. -/
def titlePool (expectedTitles : List String) (description : String)
    (subagentType : Option String) (candidates : List SessionMetadata) :
    List SessionMetadata :=
  let exactMatches := candidates.filter fun m =>
    match m.title with
    | some t => expectedTitles.contains t
    | none => false
  if exactMatches ≠ [] then exactMatches
  else
    candidates.filter fun m =>
      let t := m.title.getD ""
      if t = "" then false
      else
        match subagentType with
        | some sub =>
            if jsStartsWith t description && strIncludes t ("@" ++ sub) then
              true
            else jsStartsWith t description
        | none => jsStartsWith t description

/-- The candidate comparator: distance to `startedAt` ascending, then
`time.created` descending, then id ascending (`localeCompare`). -/
def cmpBgCandidates (startedAt : Int) (a b : SessionMetadata) : Int :=
  let ad := |a.created - startedAt|
  let bd := |b.created - startedAt|
  if ad ≠ bd then ad - bd
  else if b.created ≠ a.created then b.created - a.created
  else cmpStr a.id b.id

/-- The pool the comparator is applied to (title pool, falling back to the
raw candidates). -/
def bgSurvivingPool (opts : FindSessionOpts)
    (expectedTitles : List String) : List SessionMetadata :=
  let candidates :=
    bgCandidates opts.allSessionMetas opts.parentSessionId opts.startedAt
  let pool := titlePool expectedTitles opts.description
    (trimmedNonempty opts.subagentType) candidates
  if pool ≠ [] then pool else candidates

/-- Expected titles for the background-first search. -/
def bgExpectedTitles (description : String) (subagentType : Option String) :
    List String :=
  ["Background: " ++ description]
    ++ (match subagentType with
        | some sub => [description ++ " (@" ++ sub ++ " subagent)"]
        | none => [])
    ++ ["Task: " ++ description]

/-- Expected titles for the sync-task search (swapped preference order). -/
def taskExpectedTitles (description : String) (subagentType : Option String) :
    List String :=
  ["Task: " ++ description]
    ++ (match subagentType with
        | some sub => [description ++ " (@" ++ sub ++ " subagent)"]
        | none => [])
    ++ ["Background: " ++ description]

/-- `findBackgroundSessionId`. -/
def findBackgroundSessionId (opts : FindSessionOpts) : Option String :=
  ((jsSort (cmpBgCandidates opts.startedAt)
      (bgSurvivingPool opts
        (bgExpectedTitles opts.description
          (trimmedNonempty opts.subagentType)))).head?).map (·.id)

/-- `findTaskSessionId`. -/
def findTaskSessionId (opts : FindSessionOpts) : Option String :=
  ((jsSort (cmpBgCandidates opts.startedAt)
      (bgSurvivingPool opts
        (taskExpectedTitles opts.description
          (trimmedNonempty opts.subagentType)))).head?).map (·.id)

/-- Message comparator for the child-session stats scan: `time.created`
ascending, then id ascending. -/
def cmpMsgAsc (a b : StoredMessageMeta) : Int :=
  if a.created ≠ b.created then a.created - b.created else cmpStr a.id b.id

/-- The child-session stats fold: count tool parts, remember the last tool
name and the latest message `created`. -/
def bgStats (metas : List StoredMessageMeta)
    (pbm : String → List StoredToolPart) :
    Nat × Option String × Option Int :=
  (jsSort cmpMsgAsc metas).foldl
    (fun acc meta =>
      let parts := pbm meta.id
      (acc.1 + parts.length,
        match parts.getLast? with
        | some p => some p.tool
        | none => acc.2.1,
        some meta.created))
    (0, none, none)

/-- Per-call context of one `deriveBackgroundTasksSqlite` run. -/
structure BgCtx where
  db : SqliteDb
  mainSessionId : String
  nowMs : Int
  allSessionMetas : List SessionMetadata

/-- The tail of a background-task row construction: child-session stats,
status, timeline and the assembled `BackgroundTaskRow`. -/
def mkBgRow (ctx : BgCtx) (callID description agent : String)
    (startedAt : Int) (backgroundSessionId : Option String) :
    BackgroundTaskRow :=
  let backgroundMetas :=
    match backgroundSessionId with
    | some bsid => sqliteSessionMessages ctx.db bsid
    | none => []
  let backgroundPbm :=
    match backgroundSessionId with
    | some bsid => partsForMessage (sqliteSessionParts ctx.db bsid)
    | none => fun _ => []
  let stats := bgStats backgroundMetas backgroundPbm
  let toolCalls := stats.1
  let lastTool := stats.2.1
  let lastUpdateAt := stats.2.2
  let lastModel :=
    if backgroundMetas.length > 0 then pickLatestModelString backgroundMetas
    else none
  let status : BgStatus :=
    if backgroundSessionId = none then .queued
    else if
        (match lastUpdateAt with
         | some lu => decide (lu ≠ 0) && decide (ctx.nowMs - lu ≤ 15000)
         | none => false) = true then .running
    else if toolCalls > 0 then .completed
    else .unknown
  let timelineEndMs :=
    if status = .completed then lastUpdateAt.getD ctx.nowMs else ctx.nowMs
  { id := callID
    description := description
    agent := agent
    status := status
    toolCalls := if backgroundSessionId.isSome then some toolCalls else none
    lastTool := lastTool
    lastModel := lastModel
    timeline :=
      if status = .unknown then ""
      else formatTimeline (some startedAt) timelineEndMs
    sessionId := backgroundSessionId }

/-- Processing of one task tool part of a main-session message; `none`
models the source's `continue`s. -/
def bgRowForPart (ctx : BgCtx) (messageCreatedAt : Int)
    (part : StoredToolPart) : Option BackgroundTaskRow :=
  if !(isTaskTool part.tool) then none
  else
    let inputJ := part.stateInput
    match inputJ.get? "run_in_background" with
    | some (.bool runInBackground) =>
        let rawDescription :=
          (((inputJ.get? "description").bind Json.asString?).map
            jsTrim).getD ""
        if rawDescription = "" then none
        else
          match clampString (some rawDescription) 120 with
          | none => none
          | some description =>
              let subagentType :=
                clampString ((inputJ.get? "subagent_type").bind
                  Json.asString?) 30
              let category :=
                clampString ((inputJ.get? "category").bind Json.asString?) 30
              let agent := subagentType.getD
                (match category with
                 | some c => "sisyphus-junior (" ++ c ++ ")"
                 | none => "unknown")
              let startedAt :=
                (readStartTimeFromToolPart part).getD messageCreatedAt
              let searchOpts : FindSessionOpts :=
                { allSessionMetas := ctx.allSessionMetas
                  parentSessionId := ctx.mainSessionId
                  description := rawDescription
                  subagentType := subagentType
                  category := category
                  startedAt := startedAt }
              let backgroundSessionId : Option String :=
                if runInBackground then findBackgroundSessionId searchOpts
                else
                  let resume :=
                    (((inputJ.get? "resume").bind Json.asString?).map
                      jsTrim).getD ""
                  let resumed : Option String :=
                    if resume ≠ ""
                        ∧ (sqliteSessionMessages ctx.db resume).length > 0
                        then some resume
                    else none
                  match resumed with
                  | some r => some r
                  | none =>
                      match findBackgroundSessionId searchOpts with
                      | some i => some i
                      | none => findTaskSessionId searchOpts
              some (mkBgRow ctx part.callID description agent startedAt
                backgroundSessionId)
    | _ => none

/-- All rows contributed by one main-session message. -/
def bgRowsForMessage (ctx : BgCtx) (pbm : String → List StoredToolPart)
    (meta : StoredMessageMeta) : List BackgroundTaskRow :=
  (pbm meta.id).filterMap (bgRowForPart ctx meta.created)

/-- The newest-first scan with the 50-row cap checked after each message. -/
def bgRowsLoop (ctx : BgCtx) (pbm : String → List StoredToolPart) :
    List StoredMessageMeta → List BackgroundTaskRow →
      List BackgroundTaskRow
  | [], rows => rows
  | meta :: rest, rows =>
      let grown := rows ++ bgRowsForMessage ctx pbm meta
      if 50 ≤ grown.length then grown else bgRowsLoop ctx pbm rest grown

/-- Main-session message order for the scan: `time.created` descending. -/
def cmpMsgCreatedDesc (a b : StoredMessageMeta) : Int :=
  b.created - a.created

/-- The context a `deriveBackgroundTasksSqlite` call runs in. -/
def bgCtxOf (db : SqliteDb) (mainSessionId : String) (nowMs : Int) : BgCtx :=
  { db := db
    mainSessionId := mainSessionId
    nowMs := nowMs
    allSessionMetas := readAllSessionMetasSqlite db }

/-- The main session's parts, grouped by message. -/
def mainPbm (db : SqliteDb) (sessionId : String) :
    String → List StoredToolPart :=
  partsForMessage (sqliteSessionParts db sessionId)

/-- `deriveBackgroundTasksSqlite`. -/
def deriveBackgroundTasksSqlite (db : SqliteDb) (mainSessionId : String)
    (nowMs : Int) : List BackgroundTaskRow :=
  bgRowsLoop (bgCtxOf db mainSessionId nowMs) (mainPbm db mainSessionId)
    (jsSort cmpMsgCreatedDesc (sqliteSessionMessages db mainSessionId)) []

/-! ## Time-series activity aggregation (sqlite-derive.ts) -/

structure TimeSeriesSeries where
  id : String
  label : String
  tone : String
  values : List Int
deriving DecidableEq, Repr

structure TimeSeriesPayload where
  windowMs : Int
  bucketMs : Int
  buckets : Int
  anchorMs : Int
  serverNowMs : Int
  series : List TimeSeriesSeries
deriving DecidableEq, Repr

/-- The canonical agents of the per-agent series. -/
inductive CanonicalAgent where
  | sisyphus
  | prometheus
  | atlas
  | other
deriving DecidableEq, Repr

/-- `canonicalizeAgent`: `typeof agent !== "string"` (absent or any
non-string payload) is `other`; otherwise case-insensitive prefix match on
the label. -/
def canonicalizeAgent (agent : Option Json) : CanonicalAgent :=
  match agent with
  | some (.str a) =>
      let trimmed := jsTrim a
      if trimmed = "" then .other
      else
        let lowered := jsToLower trimmed
        if jsStartsWith lowered "sisyphus-junior" then .sisyphus
        else if jsStartsWith lowered "sisyphus" then .sisyphus
        else if jsStartsWith lowered "prometheus" then .prometheus
        else if jsStartsWith lowered "atlas" then .atlas
        else .other
  | _ => .other

/-- `zeroBuckets`. -/
def zeroBuckets (size : Int) : List Int := List.replicate size.toNat 0

/-- `addToBucket`: out-of-range indices are dropped. -/
def addToBucket (values : List Int) (bucketIndex : Int) (count : Int) :
    List Int :=
  if bucketIndex < 0 ∨ (values.length : Int) ≤ bucketIndex then values
  else values.set bucketIndex.toNat (values.getD bucketIndex.toNat 0 + count)

/-- The five bucket arrays threaded through the scan. -/
structure TsBuckets where
  overall : List Int
  sisyphus : List Int
  prometheus : List Int
  atlas : List Int
  background : List Int
deriving DecidableEq, Repr

/-- Message order of the time-series scan: `created` descending, then id
ascending. -/
def cmpTsMsg (a b : StoredMessageMeta) : Int :=
  if b.created ≠ a.created then b.created - a.created else cmpStr a.id b.id

/-- One session's bucket contribution: messages newest-first, stopping once
a message falls before the window start. -/
def tsScanMessages (pbm : String → List StoredToolPart)
    (startMs anchorMs bucketMs : Int)
    (includePerAgent isBackground : Bool) :
    List StoredMessageMeta → TsBuckets → TsBuckets
  | [], st => st
  | meta :: rest, st =>
      if meta.created < startMs then st
      else if anchorMs ≤ meta.created then
        tsScanMessages pbm startMs anchorMs bucketMs includePerAgent
          isBackground rest st
      else
        let bucketIndex := jsFloorDiv (meta.created - startMs) bucketMs
        let toolCount : Int := (pbm meta.id).length
        if toolCount ≤ 0 then
          tsScanMessages pbm startMs anchorMs bucketMs includePerAgent
            isBackground rest st
        else
          let st :=
            { st with overall := addToBucket st.overall bucketIndex toolCount }
          let st :=
            if isBackground then
              { st with
                background := addToBucket st.background bucketIndex toolCount }
            else st
          let st :=
            if includePerAgent then
              match canonicalizeAgent meta.agent with
              | .sisyphus =>
                  { st with
                    sisyphus := addToBucket st.sisyphus bucketIndex toolCount }
              | .prometheus =>
                  { st with
                    prometheus :=
                      addToBucket st.prometheus bucketIndex toolCount }
              | .atlas =>
                  { st with
                    atlas := addToBucket st.atlas bucketIndex toolCount }
              | .other => st
            else st
          tsScanMessages pbm startMs anchorMs bucketMs includePerAgent
            isBackground rest st

/-- `bucketSession`. -/
def bucketSession (db : SqliteDb) (sessionId : String)
    (startMs anchorMs bucketMs : Int) (includePerAgent isBackground : Bool)
    (st : TsBuckets) : TsBuckets :=
  tsScanMessages (partsForMessage (sqliteSessionParts db sessionId))
    startMs anchorMs bucketMs includePerAgent isBackground
    (jsSort cmpTsMsg (sqliteSessionMessages db sessionId)) st

/-- The ≤25 most recently updated direct children of the main session. -/
def childSessionsTop25 (all : List SessionMetadata) (mainId : String) :
    List String :=
  ((jsSort
      (fun a b =>
        if b.updated ≠ a.updated then b.updated - a.updated
        else cmpStr a.id b.id)
      (all.filter (·.parentID == some mainId))).take 25).map (·.id)

/-- `deriveTimeSeriesActivitySqlite` (defaults `windowMs = 300000`,
`bucketMs = 2000` applied by the caller). -/
def deriveTimeSeriesActivitySqlite (db : SqliteDb)
    (mainSessionId : Option String) (nowMs windowMs bucketMs : Int) :
    TimeSeriesPayload :=
  let buckets := jsFloorDiv windowMs bucketMs
  let anchorMs := jsFloorDiv nowMs bucketMs * bucketMs
  let startMs := anchorMs - windowMs
  let init : TsBuckets :=
    { overall := zeroBuckets buckets
      sisyphus := zeroBuckets buckets
      prometheus := zeroBuckets buckets
      atlas := zeroBuckets buckets
      background := zeroBuckets buckets }
  let allSessionMetas := readAllSessionMetasSqlite db
  let final :=
    match mainSessionId with
    | none => init
    | some mainId =>
        let st :=
          bucketSession db mainId startMs anchorMs bucketMs true false init
        (childSessionsTop25 allSessionMetas mainId).foldl
          (fun st cid =>
            bucketSession db cid startMs anchorMs bucketMs false true st)
          st
  { windowMs := windowMs
    bucketMs := bucketMs
    buckets := buckets
    anchorMs := anchorMs
    serverNowMs := nowMs
    series := [
      { id := "overall-main", label := "Overall", tone := "muted",
        values := final.overall },
      { id := "agent:sisyphus", label := "Sisyphus", tone := "teal",
        values := final.sisyphus },
      { id := "agent:prometheus", label := "Prometheus", tone := "red",
        values := final.prometheus },
      { id := "agent:atlas", label := "Atlas", tone := "green",
        values := final.atlas },
      { id := "background-total", label := "Background tasks (total)",
        tone := "muted", values := final.background }] }

/-! ## Token usage aggregation

`aggregateTokenUsage` lives in `src/ingest/token-usage-core.ts`, which is
not among the provided sources; it is modelled from the spec (§4.7) with
the row shape taken from `TokenUsageRow` in `src/token-usage-ui.tsx`. -/

structure TokenUsageRow where
  model : String
  tokIn : Int
  tokOut : Int
  reasoning : Int
  cacheRead : Int
  cacheWrite : Int
  total : Int
deriving DecidableEq, Repr

structure TokenUsageTotals where
  tokIn : Int
  tokOut : Int
  reasoning : Int
  cacheRead : Int
  cacheWrite : Int
  total : Int
deriving DecidableEq, Repr

structure TokenUsageAggregate where
  totals : TokenUsageTotals
  rows : List TokenUsageRow
deriving DecidableEq, Repr

def tokAdd (a b : TokensRec) : TokensRec :=
  { tokIn := a.tokIn + b.tokIn
    tokOut := a.tokOut + b.tokOut
    reasoning := a.reasoning + b.reasoning
    cacheRead := a.cacheRead + b.cacheRead
    cacheWrite := a.cacheWrite + b.cacheWrite }

def tokUpsert : List (String × TokensRec) → String → TokensRec →
    List (String × TokensRec)
  | [], k, t => [(k, t)]
  | (k', t') :: rest, k, t =>
      if k' == k then (k', tokAdd t' t) :: rest
      else (k', t') :: tokUpsert rest k t

/-- Modelled from the spec: `aggregateTokenUsage`
(src/ingest/token-usage-core.ts is not among the provided sources). §4.7:
group by the exact string `"{providerID}/{modelID}"`, only
`role === "assistant"` messages contribute, sum each of
input/output/reasoning/cacheRead/cacheWrite and a `total` of all five;
rows follow the `TokenUsageRow` shape of src/token-usage-ui.tsx. -/
def aggregateTokenUsage (metas : List StoredMessageMeta) :
    TokenUsageAggregate :=
  let groups := metas.foldl
    (fun acc m =>
      if m.role = .assistant then
        match m.providerID, m.modelID, m.tokens with
        | some p, some mo, some t => tokUpsert acc (p ++ "/" ++ mo) t
        | _, _, _ => acc
      else acc)
    []
  let rows := groups.map fun g =>
    { model := g.1
      tokIn := g.2.tokIn
      tokOut := g.2.tokOut
      reasoning := g.2.reasoning
      cacheRead := g.2.cacheRead
      cacheWrite := g.2.cacheWrite
      total := g.2.tokIn + g.2.tokOut + g.2.reasoning + g.2.cacheRead
        + g.2.cacheWrite : TokenUsageRow }
  { totals := rows.foldl
      (fun acc r =>
        { tokIn := acc.tokIn + r.tokIn
          tokOut := acc.tokOut + r.tokOut
          reasoning := acc.reasoning + r.reasoning
          cacheRead := acc.cacheRead + r.cacheRead
          cacheWrite := acc.cacheWrite + r.cacheWrite
          total := acc.total + r.total })
      { tokIn := 0, tokOut := 0, reasoning := 0, cacheRead := 0,
        cacheWrite := 0, total := 0 }
    rows := rows }

/-- `deriveTokenUsageSqlite`: dedupe/trim the session ids, read ≤10000
recent messages each, aggregate the union. -/
def deriveTokenUsageSqlite (db : SqliteDb) (mainSessionId : Option String)
    (backgroundSessionIds : List (Option String)) : TokenUsageAggregate :=
  let push := fun (acc : List String) (v : Option String) =>
    match v with
    | some s =>
        let id := jsTrim s
        if id ≠ "" ∧ ¬acc.contains id then acc ++ [id] else acc
    | none => acc
  let sessionIds := (mainSessionId :: backgroundSessionIds).foldl push []
  aggregateTokenUsage
    ((sessionIds.map fun sid => readRecentMessageMetasSqlite db sid 10000)).flatten

/-! ## Tool call summary (deriveToolCallsSqlite) -/

/-- One redacted tool-call row. -/
structure ToolCallRow where
  sessionId : String
  messageId : String
  callId : String
  tool : String
  status : ToolStatus
  createdAtMs : Option Int
deriving DecidableEq, Repr

/-- Result of `deriveToolCallsSqlite` (`sessionFound` is the source's
`sessionExists` flag). -/
structure ToolCallSummary where
  toolCalls : List ToolCallRow
  truncated : Bool
  sessionFound : Bool
deriving DecidableEq, Repr

/-- Sort of the collected calls: `createdSortKey` descending (`null`
created counts as `-Infinity`), then messageId, then callId ascending. -/
def cmpToolCall (a b : ToolCallRow × Option Int) : Int :=
  cmpLex (fun a b => cmpOptIntDesc a.2 b.2)
    (cmpLex (fun a b => cmpStr a.1.messageId b.1.messageId)
      (fun a b => cmpStr a.1.callId b.1.callId)) a b

/-- `deriveToolCallsSqlite`. The two caps (`MAX_TOOL_CALL_MESSAGES`,
`MAX_TOOL_CALLS`) live in `src/ingest/tool-calls.ts`, which is not among
the provided sources; they are passed as parameters. -/
def deriveToolCallsSqlite (maxMessages maxCalls : Nat) (db : SqliteDb)
    (sessionId : String) : ToolCallSummary :=
  let metas := readRecentMessageMetasSqlite db sessionId maxMessages
  if metas.length = 0 then
    { toolCalls := []
      truncated := false
      sessionFound := readSessionExistsSqlite db sessionId }
  else
    let pbm := partsForMessage
      (readToolPartsForMessagesSqlite db (metas.map (·.id)))
    let calls : List (ToolCallRow × Option Int) :=
      (metas.map fun meta =>
        (pbm meta.id).map fun part =>
          (({ sessionId := sessionId
              messageId := meta.id
              callId := part.callID
              tool := part.tool
              status := part.status
              createdAtMs := some meta.created } : ToolCallRow),
            some meta.created)).flatten
    let truncatedByMessages := maxMessages ≤ metas.length
    let truncatedByCalls := maxCalls < calls.length
    { toolCalls := ((jsSort cmpToolCall calls).take maxCalls).map (·.1)
      truncated := truncatedByMessages || truncatedByCalls
      sessionFound := true }

/-! ## JSON encodings of the derived outputs (redaction invariant) -/

def encOptStr : Option String → Json
  | some s => .str s
  | none => .null

def encOptInt : Option Int → Json
  | some n => .num n
  | none => .null

def encOptNat : Option Nat → Json
  | some n => .num n
  | none => .null

def MainStatus.toStr : MainStatus → String
  | .busy => "busy"
  | .idle => "idle"
  | .unknown => "unknown"
  | .running_tool => "running_tool"
  | .thinking => "thinking"

/-- The JSON object a `MainSessionView` serializes to. -/
def encodeMainSessionView (v : MainSessionView) : Json :=
  .obj [("agent", v.agent),
        ("currentTool", encOptStr v.currentTool),
        ("currentModel", encOptStr v.currentModel),
        ("lastUpdated", encOptInt v.lastUpdated),
        ("sessionLabel", .str v.sessionLabel),
        ("status", .str v.status.toStr)]

/-- The JSON object a `BackgroundTaskRow` serializes to. -/
def encodeBackgroundTaskRow (r : BackgroundTaskRow) : Json :=
  .obj [("id", .str r.id),
        ("description", .str r.description),
        ("agent", .str r.agent),
        ("status", .str r.status.toStr),
        ("toolCalls", encOptNat r.toolCalls),
        ("lastTool", encOptStr r.lastTool),
        ("lastModel", encOptStr r.lastModel),
        ("timeline", .str r.timeline),
        ("sessionId", encOptStr r.sessionId)]

/-- The JSON object a `deriveToolCalls` row serializes to. -/
def encodeToolCallRow (r : ToolCallRow) : Json :=
  .obj [("sessionId", .str r.sessionId),
        ("messageId", .str r.messageId),
        ("callId", .str r.callId),
        ("tool", .str r.tool),
        ("status", .str r.status.toStr),
        ("createdAtMs", encOptInt r.createdAtMs)]

/-- The JSON object a token-usage row serializes to (field names per
`TokenUsageRow` in src/token-usage-ui.tsx). -/
def encodeTokenUsageRow (r : TokenUsageRow) : Json :=
  .obj [("model", .str r.model),
        ("input", .num r.tokIn),
        ("output", .num r.tokOut),
        ("reasoning", .num r.reasoning),
        ("cacheRead", .num r.cacheRead),
        ("cacheWrite", .num r.cacheWrite),
        ("total", .num r.total)]

/-- The JSON object a token-usage aggregate serializes to. -/
def encodeTokenUsage (u : TokenUsageAggregate) : Json :=
  .obj [("totals", .obj [
          ("input", .num u.totals.tokIn),
          ("output", .num u.totals.tokOut),
          ("reasoning", .num u.totals.reasoning),
          ("cacheRead", .num u.totals.cacheRead),
          ("cacheWrite", .num u.totals.cacheWrite),
          ("total", .num u.totals.total)]),
        ("rows", .arr (u.rows.map encodeTokenUsageRow))]

/-- The key names the redaction invariant forbids. -/
def isRedactedKey (s : String) : Bool :=
  s == "prompt" || s == "input" || s == "output" || s == "error"
    || s == "state"

mutual

/-- Recursive scan of a JSON value for a forbidden key at any depth. -/
def Json.hasRedactedKey : Json → Bool
  | .obj fs => Json.hasRedactedKeyFields fs
  | .arr xs => Json.hasRedactedKeyElems xs
  | .null => false
  | .bool _ => false
  | .num _ => false
  | .str _ => false

def Json.hasRedactedKeyFields : List (String × Json) → Bool
  | [] => false
  | f :: rest =>
      isRedactedKey f.1 || Json.hasRedactedKey f.2
        || Json.hasRedactedKeyFields rest

def Json.hasRedactedKeyElems : List Json → Bool
  | [] => false
  | j :: rest => Json.hasRedactedKey j || Json.hasRedactedKeyElems rest

end

/-! ## Stacked bar segments (timeseries-stacked.ts)

Real arithmetic is modelled over `ℚ`; a count that is `NaN`/`±Infinity` in
JS is modelled as `none`. `Math.round` rounds half towards `+∞`. -/

/-- The four stack tones, bottom to top. -/
inductive AgentTone where
  | teal
  | red
  | green
  | sand
deriving DecidableEq, Repr

/-- One stacked bar segment. -/
structure StackedSegment where
  tone : AgentTone
  y : ℚ
  height : Int
deriving DecidableEq, Repr

/-- The four agents of a bucket. -/
inductive AgentKey where
  | sisyphus
  | prometheus
  | atlas
  | other
deriving DecidableEq, Repr

/-- Per-agent counts; `none` models a non-finite JS number. -/
structure AgentCounts where
  sisyphus : Option ℚ
  prometheus : Option ℚ
  atlas : Option ℚ
  other : Option ℚ
deriving DecidableEq, Repr

/-- `Math.max(0, Number.isFinite(c) ? c : 0)`. -/
def sanitizeCount (c : Option ℚ) : ℚ := max 0 (c.getD 0)

def countOf (counts : AgentCounts) : AgentKey → Option ℚ
  | .sisyphus => counts.sisyphus
  | .prometheus => counts.prometheus
  | .atlas => counts.atlas
  | .other => counts.other

def sanitizedOf (counts : AgentCounts) (k : AgentKey) : ℚ :=
  sanitizeCount (countOf counts k)

/-- `Math.round`: half rounds towards `+∞`. -/
def jsRound (q : ℚ) : Int := Int.floor (q + 1/2)

/-- The rounded initial height of one agent: at least 1px when the
sanitized count is positive, 0 otherwise. -/
def initialHeight (counts : AgentCounts) (scaleMax chartHeight : ℚ)
    (k : AgentKey) : Int :=
  let s := sanitizedOf counts k
  (max 1 (jsRound (s / scaleMax * chartHeight)))
    * (if s > 0 then 1 else 0)

/-- Pointwise update of a height assignment. -/
def updH (h : AgentKey → Int) (k : AgentKey) (v : Int) : AgentKey → Int :=
  fun k' => if k' = k then v else h k'

def sumHeights (h : AgentKey → Int) : Int :=
  h .sisyphus + h .prometheus + h .atlas + h .other

/-- The first proportional-reduction loop: each weight carries the height
captured before the loop; stops when the remaining excess is gone. -/
def reduceFold (excess : ℚ) (totalWeight : Int) :
    List (AgentKey × Int) → (AgentKey → Int) → ℚ → (AgentKey → Int)
  | [], h, _ => h
  | (k, capturedH) :: rest, h, remaining =>
      if remaining ≤ 0 then h
      else
        let reduction := min (max 1 (capturedH - 1))
          (jsRound ((capturedH : ℚ) / (totalWeight : ℚ) * excess))
        reduceFold excess totalWeight rest (updH h k (h k - reduction))
          (remaining - reduction)

/-- The largest still-trimmable (>1px) segment, ties to the earlier weight
(stable sort by height descending). -/
def trimPick (weights : List (AgentKey × Int)) (h : AgentKey → Int) :
    Option AgentKey :=
  ((jsSort (fun a b : AgentKey × Int => b.2 - a.2)
      ((weights.map fun w => (w.1, h w.1)).filter
        fun w => w.2 > 1)).head?).map (·.1)

/-- The final 1px-at-a-time trim: while the total exceeds `chartHeight`,
decrement the largest segment higher than 1px, stopping when none is
left. -/
def trimLoop (weights : List (AgentKey × Int)) (chartHeight : ℚ)
    (h : AgentKey → Int) : AgentKey → Int :=
  if htr : chartHeight < (sumHeights h : ℚ) then
    match trimPick weights h with
    | none => h
    | some k => trimLoop weights chartHeight (updH h k (h k - 1))
  else h
termination_by (sumHeights h - Int.ceil chartHeight + 1).toNat
decreasing_by
  have hsum : sumHeights (updH h k (h k - 1)) = sumHeights h - 1 := by
    cases k <;> simp [sumHeights, updH] <;> ring
  have hceil : Int.ceil chartHeight ≤ sumHeights h :=
    Int.ceil_le.mpr (le_of_lt htr)
  rw [hsum]
  omega

/-- The overflow block of `computeStackedSegments` (only entered when the
rounded total exceeds `chartHeight`, and only with a non-empty weight
list). -/
def overflowAdjust (chartHeight : ℚ) (h0 : AgentKey → Int) :
    AgentKey → Int :=
  let totalRounded := sumHeights h0
  if chartHeight < (totalRounded : ℚ) then
    let excess := (totalRounded : ℚ) - chartHeight
    let weights :=
      ([AgentKey.sisyphus, .prometheus, .atlas, .other].map
        fun k => (k, h0 k)).filter fun w => w.2 > 0
    if weights ≠ [] then
      let totalWeight := weights.foldl (fun acc w => acc + w.2) 0
      let h1 := reduceFold excess totalWeight weights h0 excess
      trimLoop weights chartHeight h1
    else h0
  else h0

/-- Bottom-to-top segment construction: teal, red, green, sand, skipping
agents whose final height is not positive. -/
def buildSegments (chartHeight : ℚ) (h : AgentKey → Int) :
    List StackedSegment :=
  let y0 := chartHeight
  let sTeal : List StackedSegment :=
    if h .sisyphus > 0 then
      [{ tone := .teal, y := y0 - h .sisyphus, height := h .sisyphus }]
    else []
  let y1 := if h .sisyphus > 0 then y0 - h .sisyphus else y0
  let sRed : List StackedSegment :=
    if h .prometheus > 0 then
      [{ tone := .red, y := y1 - h .prometheus, height := h .prometheus }]
    else []
  let y2 := if h .prometheus > 0 then y1 - h .prometheus else y1
  let sGreen : List StackedSegment :=
    if h .atlas > 0 then
      [{ tone := .green, y := y2 - h .atlas, height := h .atlas }]
    else []
  let y3 := if h .atlas > 0 then y2 - h .atlas else y2
  let sSand : List StackedSegment :=
    if h .other > 0 then
      [{ tone := .sand, y := y3 - h .other, height := h .other }]
    else []
  sTeal ++ sRed ++ sGreen ++ sSand

/-- `computeStackedSegments`. -/
def computeStackedSegments (counts : AgentCounts)
    (scaleMax chartHeight : ℚ) : List StackedSegment :=
  if chartHeight ≤ 0 ∨ scaleMax ≤ 0 then []
  else
    let total := sanitizedOf counts .sisyphus + sanitizedOf counts .prometheus
      + sanitizedOf counts .atlas + sanitizedOf counts .other
    if total = 0 then []
    else
      let h0 := initialHeight counts scaleMax chartHeight
      buildSegments chartHeight (overflowAdjust chartHeight h0)

/-- `readToolPartsForMessage` (files, background-tasks.ts) acceptance: a
parsed part is kept iff `type === "tool"`, `tool` is a string (possibly
empty), and `state` is a non-null object. -/
def filesPartAccepted (j : Json) : Bool :=
  (match j.get? "type" with
   | some (.str "tool") => true
   | _ => false)
  && ((j.get? "tool").bind Json.asString?).isSome
  && ((j.get? "state").getD .null).isObjLike

/-- `readToolPartsForMessage` (files): name-sorted `.json` entries, parse
failures and rejected shapes silently skipped. -/
def readToolPartsForMessageF (st : FilesStorage) (messageId : String) :
    List Json :=
  match partDir? st messageId with
  | none => []
  | some files =>
      (jsSort (fun a b => cmpStr a.name b.name)
          (files.filter (fun f => strEndsWith f.name ".json"))).filterMap fun f =>
        match f.content with
        | some j => if filesPartAccepted j then some j else none
        | none => none

/-- Claim-side reading of the §4.2 tool-part sanitation rules: accepted
only if `type === "tool"`, `callID` and `tool` are non-empty strings,
`state.status` is one of the four known statuses and `state.input` is a
non-null object. -/
def claimToolPartOk (j : Json) : Bool :=
  (match j.get? "type" with
   | some (.str "tool") => true
   | _ => false)
  && (match (j.get? "callID").bind Json.asString? with
      | some c => c ≠ ""
      | none => false)
  && (match (j.get? "tool").bind Json.asString? with
      | some t => t ≠ ""
      | none => false)
  && (match (((j.get? "state").getD .null).get? "status").bind
        Json.asString? with
      | some s => (parseToolStatus s).isSome
      | none => false)
  && ((((j.get? "state").getD .null).get? "input").getD .null).isObjLike

/-! # Theorems

## Active-tool scan lemmas -/

theorem findActiveInParts_isSome (parts : List StoredToolPart) :
    (findActiveInParts parts).isSome = true ↔
      ∃ p ∈ parts, p.status.isActive = true := by
  unfold findActiveInParts
  cases hf : parts.reverse.find? (fun p => p.status.isActive) with
  | none =>
      rw [List.find?_eq_none] at hf
      simp only [Option.map_none', Option.isSome_none,
        Bool.false_eq_true, false_iff]
      rintro ⟨p, hp, hact⟩
      exact absurd hact (by simpa using hf p (List.mem_reverse.mpr hp))
  | some p =>
      simp only [Option.map_some', Option.isSome_some, true_iff]
      exact ⟨p, List.mem_reverse.mp (List.mem_of_find?_eq_some hf),
        by simpa using List.find?_some hf⟩

theorem findActiveInParts_active {parts : List StoredToolPart}
    {t : String × ToolStatus} (h : findActiveInParts parts = some t) :
    t.2.isActive = true := by
  unfold findActiveInParts at h
  cases hf : parts.reverse.find? (fun p => p.status.isActive) with
  | none => rw [hf] at h; exact Option.noConfusion h
  | some p =>
      rw [hf] at h
      simp only [Option.map_some', Option.some.injEq] at h
      have hp := List.find?_some hf
      rw [← h]
      simpa using hp

theorem findActiveTool_isSome (pbm : String → List StoredToolPart)
    (metas : List StoredMessageMeta) :
    (findActiveTool pbm metas).isSome = true ↔
      ∃ m ∈ metas, ∃ p ∈ pbm m.id, p.status.isActive = true := by
  induction metas with
  | nil => simp [findActiveTool]
  | cons m rest ih =>
      unfold findActiveTool
      cases hf : findActiveInParts (pbm m.id) with
      | some t =>
          simp only [Option.isSome_some, true_iff]
          have : (findActiveInParts (pbm m.id)).isSome = true := by
            rw [hf]; rfl
          rcases (findActiveInParts_isSome _).mp this with ⟨p, hp, hact⟩
          exact ⟨m, by simp, p, hp, hact⟩
      | none =>
          rw [ih]
          constructor
          · rintro ⟨m', hm', p, hp, hact⟩
            exact ⟨m', by simp [hm'], p, hp, hact⟩
          · rintro ⟨m', hm', p, hp, hact⟩
            rcases List.mem_cons.mp hm' with rfl | hm''
            · exfalso
              have : (findActiveInParts (pbm m'.id)).isSome = true :=
                (findActiveInParts_isSome _).mpr ⟨p, hp, hact⟩
              rw [hf] at this
              simp at this
            · exact ⟨m', hm'', p, hp, hact⟩

theorem findActiveTool_active {pbm : String → List StoredToolPart}
    {metas : List StoredMessageMeta} {t : String × ToolStatus}
    (h : findActiveTool pbm metas = some t) : t.2.isActive = true := by
  induction metas with
  | nil => simp [findActiveTool] at h
  | cons m rest ih =>
      unfold findActiveTool at h
      cases hf : findActiveInParts (pbm m.id) with
      | some t' =>
          rw [hf] at h
          cases h
          exact findActiveInParts_active hf
      | none =>
          rw [hf] at h
          exact ih h

theorem anyActiveToolSqlite_iff (db : SqliteDb) (sid : String) :
    anyActiveToolSqlite db sid = true ↔
      ∃ m ∈ sqliteSessionMessages db sid,
        ∃ p ∈ partsForMessage (sqliteSessionParts db sid) m.id,
          p.status.isActive = true := by
  simp [anyActiveToolSqlite]

/-- Helper: the sqlite status machine reports `running_tool` whenever the
recent window holds a pending/running part. -/
theorem mainViewSqlite_running_tool (db : SqliteDb) (sid : String)
    (meta : Option SessionMetadata) (now : Int)
    (h : anyActiveToolSqlite db sid = true) :
    (getMainSessionViewSqlite db sid meta now).status =
      MainStatus.running_tool := by
  have hex := (anyActiveToolSqlite_iff db sid).mp h
  have hsome : (findActiveTool
      (partsForMessage (sqliteSessionParts db sid))
      (sqliteSessionMessages db sid)).isSome = true :=
    (findActiveTool_isSome _ _).mpr hex
  unfold getMainSessionViewSqlite computeMainViewSqlite
  cases hft : findActiveTool (partsForMessage (sqliteSessionParts db sid))
      (sqliteSessionMessages db sid) with
  | none => rw [hft] at hsome; simp at hsome
  | some t =>
      have hact := findActiveTool_active hft
      simp [hft, hact]

/-- Helper: with a quiet window and a streaming newest assistant message,
the sqlite status machine reports `thinking` regardless of `now`. -/
theorem mainViewSqlite_thinking (db : SqliteDb) (sid : String)
    (meta : Option SessionMetadata) (now : Int) (m : StoredMessageMeta)
    (hquiet : anyActiveToolSqlite db sid = false)
    (hhead : (sqliteSessionMessages db sid).head? = some m)
    (hrole : m.role = Role.assistant) (hcomp : m.completed = none) :
    (getMainSessionViewSqlite db sid meta now).status =
      MainStatus.thinking := by
  have hnone : findActiveTool (partsForMessage (sqliteSessionParts db sid))
      (sqliteSessionMessages db sid) = none := by
    cases hft : findActiveTool (partsForMessage (sqliteSessionParts db sid))
        (sqliteSessionMessages db sid) with
    | none => rfl
    | some t =>
        exfalso
        have hsome : (findActiveTool
            (partsForMessage (sqliteSessionParts db sid))
            (sqliteSessionMessages db sid)).isSome = true := by
          rw [hft]; rfl
        have hex := (findActiveTool_isSome _ _).mp hsome
        have := (anyActiveToolSqlite_iff db sid).mpr hex
        rw [hquiet] at this
        exact Bool.false_ne_true this
  unfold getMainSessionViewSqlite computeMainViewSqlite
  rw [hnone, hhead]
  simp [hrole, hcomp]

theorem findActiveToolF_isSome_eq (st : FilesStorage)
    (metas : List FileMsg) :
    (findActiveToolF st metas).isSome =
      (metas.any fun m =>
        ((readLastToolPartF st (m.id.getD "")).map fun t =>
          t.2 == "pending" || t.2 == "running").getD false) := by
  induction metas with
  | nil => rfl
  | cons m rest ih =>
      unfold findActiveToolF
      cases hl : readLastToolPartF st (m.id.getD "") with
      | none => simpa [List.any_cons, hl] using ih
      | some t =>
          by_cases hact : (t.2 == "pending" || t.2 == "running") = true
          · simp [List.any_cons, hl, hact]
          · simp only [List.any_cons, hl, Option.map_some', Option.getD_some,
              hact, if_neg, Bool.false_or]
            rw [if_neg (by simp [hact])]
            exact ih

theorem findActiveToolF_active {st : FilesStorage} {metas : List FileMsg}
    {t : String × String} (h : findActiveToolF st metas = some t) :
    (t.2 == "pending" || t.2 == "running") = true := by
  induction metas with
  | nil => exact Option.noConfusion h
  | cons m rest ih =>
      unfold findActiveToolF at h
      cases hl : readLastToolPartF st (m.id.getD "") with
      | none => rw [hl] at h; exact ih h
      | some t' =>
          rw [hl] at h
          by_cases hact : (t'.2 == "pending" || t'.2 == "running") = true
          · have heq : t' = t := by simpa [hact] using h
            rw [← heq]
            exact hact
          · exact ih (by simpa [hact] using h)

/-- Helper: the files status machine reports `running_tool` whenever some
recent message's last tool part is pending/running. -/
theorem mainViewF_running_tool (st : FilesStorage) (sid : String)
    (meta : Option SessionMetadata) (now : Int)
    (h : lastPartActiveF st sid = true) :
    (getMainSessionViewF st sid meta now).status =
      MainStatus.running_tool := by
  have hsome : (findActiveToolF st (filesRecentMsgs st sid)).isSome = true := by
    rw [findActiveToolF_isSome_eq]
    exact h
  unfold getMainSessionViewF
  cases hft : findActiveToolF st (filesRecentMsgs st sid) with
  | none => rw [hft] at hsome; exact absurd hsome (by simp)
  | some t =>
      have hact := findActiveToolF_active hft
      simp [hft, hact]

/-! ## Concrete storage states for scenarios and counterexamples -/

/-- A minimal message payload `{role, time: {created}}`. -/
def msgJson (role : String) (created : Int) : Json :=
  .obj [("role", .str role), ("time", .obj [("created", .num created)])]

/-- A well-formed tool part payload with the given call id, tool and
status. -/
def toolPartJson (callID tool status : String) : Json :=
  .obj [("type", .str "tool"), ("callID", .str callID),
        ("tool", .str tool),
        ("state", .obj [("status", .str status), ("input", .obj [])])]

/-- C1 scenario db (sqlite): newest message (t=2000, user) has no tool
parts, an older message (t=1000) has a pending part. -/
def c1db : SqliteDb :=
  { sessions := []
    messages := [
      { id := some "m2", sessionId := some "s", timeCreated := some 2000,
        data := some (msgJson "user" 2000) },
      { id := some "m1", sessionId := some "s", timeCreated := some 1000,
        data := some (msgJson "user" 1000) }]
    parts := [
      { id := some "p1", messageId := some "m1", sessionId := some "s",
        timeCreated := some 1000,
        data := some (toolPartJson "c1" "bash" "pending") }] }

/-- Parsed message file content used by the files-backend examples. -/
def exUserMsg : FileMsg :=
  { id := some "m1", role := some .user, created := some 1000,
    completed := none, agent := none }

/-- Parsed assistant message file content (streaming: no `completed`). -/
def exAssistantMsg : FileMsg :=
  { id := some "m1", role := some .assistant, created := some 1000,
    completed := none, agent := none }

/-- C1 witness storage (files): one message whose single (hence last) tool
part is pending. -/
def c1wst : FilesStorage :=
  { sessionMetas := []
    messageDirs := [("s", [
      { name := "m1.json", mtime := 10, content := some exUserMsg }])]
    partDirs := [("m1", [
      { name := "a.json",
        content := some (toolPartJson "ca" "bashA" "pending") }])] }

/-- C1 counterexample storage (files): the message's parts are a pending
one under name `a.json` and a newer completed one under `b.json`; only the
newest is inspected. -/
def c1st : FilesStorage :=
  { sessionMetas := []
    messageDirs := [("s", [
      { name := "m1.json", mtime := 10, content := some exUserMsg }])]
    partDirs := [("m1", [
      { name := "a.json",
        content := some (toolPartJson "ca" "bashA" "pending") },
      { name := "b.json",
        content := some (toolPartJson "cb" "bashB" "completed") }])] }

/-- C3 scenario db (sqlite): single assistant message, `time.completed`
absent, no tool parts. -/
def c3db : SqliteDb :=
  { sessions := []
    messages := [
      { id := some "m1", sessionId := some "s", timeCreated := some 1000,
        data := some (msgJson "assistant" 1000) }]
    parts := [] }

/-- C3 counterexample storage (files): single assistant message,
`time.completed` absent, no tool parts. -/
def c3st : FilesStorage :=
  { sessionMetas := []
    messageDirs := [("s", [
      { name := "m1.json", mtime := 10, content := some exAssistantMsg }])]
    partDirs := [] }

/-! ## C1 -/

/-- C1 (amended): if a pending/running tool part is visible to the scan,
the status is `running_tool`, regardless of `now` and of the newest
message's role — in the sqlite implementation *any* tool part across the
recent messages counts, while the files implementation only inspects the
newest (last by filename) tool part of each message. -/
theorem c1_running_tool_precedence :
    (∀ (db : SqliteDb) (sid : String) (meta : Option SessionMetadata)
      (now : Int), anyActiveToolSqlite db sid = true →
      (getMainSessionViewSqlite db sid meta now).status =
        MainStatus.running_tool)
    ∧ (∀ (st : FilesStorage) (sid : String) (meta : Option SessionMetadata)
      (now : Int), lastPartActiveF st sid = true →
      (getMainSessionViewF st sid meta now).status =
        MainStatus.running_tool) :=
  ⟨mainViewSqlite_running_tool, mainViewF_running_tool⟩

/-- C1 witness: the spec's scenario (newest user message at t=2000 without
tool parts, older message at t=1000 with a pending part, now=50000) in the
sqlite backend, and a single-pending-part message in the files backend. -/
theorem c1_running_tool_precedence_witness :
    (getMainSessionViewSqlite c1db "s" none 50000).status =
      MainStatus.running_tool
    ∧ (getMainSessionViewF c1wst "s" none 50000).status =
      MainStatus.running_tool :=
  ⟨c1_running_tool_precedence.1 c1db "s" none 50000 (by decide),
    c1_running_tool_precedence.2 c1wst "s" none 50000 (by decide)⟩

/-- C1 counterexample: in the files backend a message whose pending part
(`a.json`) is shadowed by a newer completed part (`b.json`) does *not*
yield `running_tool` even though a tool part across the recent messages is
pending — refuting the claim as stated for the files implementation. -/
theorem c1_running_tool_precedence_counterexample :
    claimAnyActivePartF c1st "s" = true
    ∧ (getMainSessionViewF c1st "s" none 2000).status = MainStatus.busy := by
  constructor
  · decide
  · decide

/-! ## C3 -/

/-- C3 (amended): in the sqlite implementation, when no tool part across
the recent messages is pending/running and the single newest message is an
assistant message whose `time.completed` is absent, the status is
`thinking`, for every `now` (so before the busy/idle freshness rule). The
files implementation has no `thinking` state (see the counterexample). -/
theorem c3_thinking_rule :
    ∀ (db : SqliteDb) (sid : String) (meta : Option SessionMetadata)
      (now : Int) (m : StoredMessageMeta),
      anyActiveToolSqlite db sid = false →
      (sqliteSessionMessages db sid).head? = some m →
      m.role = Role.assistant → m.completed = none →
      (getMainSessionViewSqlite db sid meta now).status =
        MainStatus.thinking :=
  fun db sid meta now m h1 h2 h3 h4 =>
    mainViewSqlite_thinking db sid meta now m h1 h2 h3 h4

/-- C3 witness: a streaming assistant message with a long-stale timestamp
still reports `thinking` in the sqlite backend. -/
theorem c3_thinking_rule_witness :
    (getMainSessionViewSqlite c3db "s" none 999999).status =
      MainStatus.thinking :=
  c3_thinking_rule c3db "s" none 999999
    { id := "m1", sessionID := "s", role := .assistant, created := 1000,
      completed := none, agent := none, providerID := none, modelID := none,
      tokens := none }
    (by decide) rfl rfl rfl

/-! ## C6 -/

theorem cmpStr_swap (a b : String) : cmpStr b a = -cmpStr a b :=
  cmpCharList_swap a.data b.data

/-- The title pools of an empty candidate set are empty. -/
theorem titlePool_nil {titles : List String} {d : String}
    {sub : Option String} : titlePool titles d sub [] = [] := rfl

/-- The candidate comparator as a lexicographic order. -/
theorem cmpBg_le_iff (s : Int) (a b : SessionMetadata) :
    cmpBgCandidates s a b ≤ 0 ↔
      (|a.created - s| < |b.created - s|
        ∨ (|a.created - s| = |b.created - s| ∧ b.created < a.created)
        ∨ (|a.created - s| = |b.created - s| ∧ a.created = b.created
            ∧ cmpStr a.id b.id ≤ 0)) := by
  simp only [cmpBgCandidates]
  generalize |a.created - s| = A
  generalize |b.created - s| = B
  split_ifs with h1 h2 <;> omega

theorem cmpBg_total (s : Int) : IsCmpTotal (cmpBgCandidates s) := by
  intro a b
  rw [cmpBg_le_iff, cmpBg_le_iff]
  have hsw := cmpStr_swap a.id b.id
  rcases cmpStr_total a.id b.id with h | h <;> omega

theorem cmpBg_trans (s : Int) : IsCmpTrans (cmpBgCandidates s) := by
  intro a b c hab hbc
  rw [cmpBg_le_iff] at hab hbc ⊢
  rcases hab with h1 | ⟨h1, h1'⟩ | ⟨h1, h1', h1''⟩ <;>
    rcases hbc with h2 | ⟨h2, h2'⟩ | ⟨h2, h2', h2''⟩ <;>
      try omega
  exact Or.inr (Or.inr ⟨by omega, by omega, cmpStr_trans h1'' h2''⟩)

/-- C4 (amended): the candidate set is exactly the sessions with
`parentID = mainSessionId` and `time.created ∈ [startedAt-10000,
startedAt+15*60000]`; the result is `none` iff that set is empty, and an
id returned comes from the title-filtered surviving pool and minimizes the
tie-break comparator (smallest `|created - startedAt|`, then newest
`created`, then lexicographically *smallest* id). -/
theorem c4_correlation_tiebreak :
    ∀ opts : FindSessionOpts,
      (∀ m, m ∈ bgCandidates opts.allSessionMetas opts.parentSessionId
          opts.startedAt ↔
        (m ∈ opts.allSessionMetas
          ∧ m.parentID = some opts.parentSessionId
          ∧ opts.startedAt - 10000 ≤ m.created
          ∧ m.created ≤ opts.startedAt + 15 * 60000))
      ∧ (findBackgroundSessionId opts = none ↔
          bgCandidates opts.allSessionMetas opts.parentSessionId
            opts.startedAt = [])
      ∧ (∀ i, findBackgroundSessionId opts = some i →
          ∃ m ∈ bgSurvivingPool opts
              (bgExpectedTitles opts.description
                (trimmedNonempty opts.subagentType)), m.id = i ∧
            ∀ m' ∈ bgSurvivingPool opts
                (bgExpectedTitles opts.description
                  (trimmedNonempty opts.subagentType)),
              cmpBgCandidates opts.startedAt m m' ≤ 0 ∨ m = m') := by
  intro opts
  refine ⟨?_, ?_, ?_⟩
  · intro m
    unfold bgCandidates
    rw [List.mem_filter]
    simp only [Bool.and_eq_true, beq_iff_eq, decide_eq_true_eq]
    tauto
  · unfold findBackgroundSessionId
    have hpool : bgSurvivingPool opts
        (bgExpectedTitles opts.description
          (trimmedNonempty opts.subagentType)) = [] ↔
        bgCandidates opts.allSessionMetas opts.parentSessionId
          opts.startedAt = [] := by
      simp only [bgSurvivingPool]
      split_ifs with hne
      · constructor
        · intro h; exact absurd h hne
        · intro h
          rw [h] at hne
          exact absurd titlePool_nil hne
      · exact Iff.rfl
    cases hs : jsSort (cmpBgCandidates opts.startedAt)
        (bgSurvivingPool opts
          (bgExpectedTitles opts.description
            (trimmedNonempty opts.subagentType))) with
    | nil =>
        simp only [List.head?_nil, Option.map_none']
        refine ⟨fun _ => hpool.mp ((jsSort_eq_nil _ _).mp hs), fun _ => ?_⟩
        trivial
    | cons m rest =>
        simp only [List.head?_cons, Option.map_some']
        constructor
        · intro h; exact absurd h (by simp)
        · intro h
          rw [hpool.mpr h] at hs
          simp [jsSort] at hs
  · intro i hi
    unfold findBackgroundSessionId at hi
    cases hs : jsSort (cmpBgCandidates opts.startedAt)
        (bgSurvivingPool opts
          (bgExpectedTitles opts.description
            (trimmedNonempty opts.subagentType))) with
    | nil => rw [hs] at hi; exact Option.noConfusion hi
    | cons m rest =>
        rw [hs] at hi
        simp only [List.head?_cons, Option.map_some',
          Option.some.injEq] at hi
        refine ⟨m, ?_, hi, ?_⟩
        · have : m ∈ jsSort (cmpBgCandidates opts.startedAt)
              (bgSurvivingPool opts
                (bgExpectedTitles opts.description
                  (trimmedNonempty opts.subagentType))) := by
            rw [hs]; simp
          exact (jsSort_mem _ _ _).mp this
        · intro m' hm'
          exact jsSort_head_min _ (cmpBg_total opts.startedAt)
            (cmpBg_trans opts.startedAt) _ m rest hs m' hm'

/-- Two equally-distant candidate children with ids `a` and `b`. -/
def c4sA : SessionMetadata :=
  { id := "a", projectID := "p", directory := "/r",
    title := some "Background: d", parentID := some "main",
    created := 1000, updated := 1000 }

def c4sB : SessionMetadata :=
  { id := "b", projectID := "p", directory := "/r",
    title := some "Background: d", parentID := some "main",
    created := 1000, updated := 1000 }

def c4opts : FindSessionOpts :=
  { allSessionMetas := [c4sA, c4sB]
    parentSessionId := "main"
    description := "d"
    subagentType := none
    category := none
    startedAt := 1000 }

/-- C4 counterexample: with two exact-title candidates at the same
distance and creation time, the implementation returns the
lexicographically *smallest* id `"a"`, not the largest id `"b"` the claim
demands. -/
theorem c4_correlation_tiebreak_counterexample :
    findBackgroundSessionId c4opts = some "a"
    ∧ c4sB ∈ bgCandidates c4opts.allSessionMetas c4opts.parentSessionId
        c4opts.startedAt
    ∧ c4sB.id = "b"
    ∧ (∀ m ∈ bgCandidates c4opts.allSessionMetas c4opts.parentSessionId
        c4opts.startedAt, cmpStr m.id "b" ≤ 0)
    ∧ ("a" : String) ≠ "b" := by
  refine ⟨by decide, by decide, rfl, by decide, by decide⟩

/-- C4 witness: the amended theorem applied at the two-candidate state. -/
theorem c4_correlation_tiebreak_witness :
    ∃ m ∈ bgSurvivingPool c4opts
        (bgExpectedTitles c4opts.description
          (trimmedNonempty c4opts.subagentType)), m.id = "a" ∧
      ∀ m' ∈ bgSurvivingPool c4opts
          (bgExpectedTitles c4opts.description
            (trimmedNonempty c4opts.subagentType)),
        cmpBgCandidates c4opts.startedAt m m' ≤ 0 ∨ m = m' :=
  (c4_correlation_tiebreak c4opts).2.2 "a" (by decide)

/-! ## C7 -/

/-- Claim-side acceptance over a raw sqlite part row: all column strings
present and non-empty, and the payload passes the full §4.2 checks. -/
def claimPartRowOk (r : PartRow) : Bool :=
  (match r.id with | some v => v ≠ "" | none => false)
  && (match r.messageId with | some v => v ≠ "" | none => false)
  && (match r.sessionId with | some v => v ≠ "" | none => false)
  && (match r.data with | some j => claimToolPartOk j | none => false)

theorem isObjLike_of_get? {j : Json} {k : String} {v : Json}
    (h : j.get? k = some v) : j.isObjLike = true := by
  cases j with
  | obj fs => rfl
  | arr xs => exact absurd h (by simp [Json.get?])
  | null => exact absurd h (by simp [Json.get?])
  | bool b => exact absurd h (by simp [Json.get?])
  | num n => exact absurd h (by simp [Json.get?])
  | str v => exact absurd h (by simp [Json.get?])

/-- C7 (amended): the sqlite reader accepts a part row exactly under the
claim's conditions (row strings present and non-empty, `type === "tool"`,
non-empty `callID`/`tool`, known `state.status`, non-null object
`state.input`), malformed rows yielding no output row; the files reader
keeps every name-sorted `.json` entry whose payload merely has
`type === "tool"`, a string `tool` and an object `state` — `callID`,
`state.status` and `state.input` are not checked there. -/
theorem c7_tool_part_sanitation :
    (∀ r : PartRow, (sanitizePartRow r).isSome = true →
      claimPartRowOk r = true)
    ∧ (∀ r : PartRow, claimPartRowOk r = true →
        (sanitizePartRow r).isSome = true)
    ∧ (∀ (st : FilesStorage) (mid : String) (j : Json),
        j ∈ readToolPartsForMessageF st mid ↔
          ∃ f ∈ (partDir? st mid).getD [],
            strEndsWith f.name ".json" = true ∧ f.content = some j
              ∧ filesPartAccepted j = true) := by
  refine ⟨?_, ?_, ?_⟩
  · intro r h
    rw [Option.isSome_iff_exists] at h
    obtain ⟨p, hp⟩ := h
    obtain ⟨rid, rmid, rsid, rtc, rdata⟩ := r
    simp only [sanitizePartRow] at hp
    split at hp
    case _ id mid sid j =>
      split at hp
      case isTrue => exact Option.noConfusion hp
      case isFalse hEmpty =>
        split at hp
        case isTrue hObj =>
          split at hp
          case _ heqType =>
            split at hp
            case isTrue hStObj =>
              split at hp
              case _ callID tool status inputJ hCall hTool hStatus hInput =>
                split at hp
                case isTrue hcond =>
                  obtain ⟨hc1, hc2, hc3⟩ := hcond
                  have hEmpty' : ¬id = "" ∧ ¬mid = "" ∧ ¬sid = "" := by
                    simpa [not_or] using hEmpty
                  obtain ⟨he1, he2, he3⟩ := hEmpty'
                  obtain ⟨sv, hsv, hparse⟩ := Option.bind_eq_some.mp hStatus
                  simp only [claimPartRowOk, claimToolPartOk, heqType, hCall,
                    hTool, hsv, hInput, Option.getD_some,
                    Bool.and_eq_true, decide_eq_true_eq]
                  repeat' apply And.intro
                  all_goals
                    first
                      | exact he1
                      | exact he2
                      | exact he3
                      | exact hc1
                      | exact hc2
                      | exact hc3
                      | rfl
                      | simp [hparse]
                case isFalse => exact Option.noConfusion hp
              case _ => exact Option.noConfusion hp
            case isFalse => exact Option.noConfusion hp
          case _ => exact Option.noConfusion hp
        case isFalse => exact Option.noConfusion hp
    case _ => exact Option.noConfusion hp
  · intro r h
    obtain ⟨rid, rmid, rsid, rtc, rdata⟩ := r
    simp only [claimPartRowOk, Bool.and_eq_true] at h
    obtain ⟨⟨⟨h1, h2⟩, h3⟩, h4⟩ := h
    cases rid with
    | none => exact absurd h1 (by simp)
    | some id =>
    cases rmid with
    | none => exact absurd h2 (by simp)
    | some mid =>
    cases rsid with
    | none => exact absurd h3 (by simp)
    | some sid =>
    cases rdata with
    | none => exact absurd h4 (by simp)
    | some j =>
    simp only [decide_eq_true_eq] at h1 h2 h3
    simp only [claimToolPartOk, Bool.and_eq_true] at h4
    obtain ⟨⟨⟨⟨ht, hcall⟩, htool⟩, hstat⟩, hinp⟩ := h4
    split at ht
    case _ heqType =>
      split at hcall
      case _ c hc =>
        split at htool
        case _ t htl =>
          split at hstat
          case _ sv hss =>
            rw [Option.isSome_iff_exists] at hstat
            obtain ⟨stv, hstv⟩ := hstat
            obtain ⟨su, hsu, _⟩ := Option.bind_eq_some.mp hss
            have hStObj : ((j.get? "state").getD Json.null).isObjLike =
                true := isObjLike_of_get? hsu
            cases hgi : ((j.get? "state").getD Json.null).get? "input" with
            | none =>
                rw [hgi] at hinp
                exact absurd hinp (by simp [Json.isObjLike])
            | some inputJ =>
                rw [hgi] at hinp
                simp only [Option.getD_some] at hinp
                simp only [decide_eq_true_eq] at hcall htool
                have hval : sanitizePartRow
                    ⟨some id, some mid, some sid, rtc, some j⟩ =
                    some (StoredToolPart.mk id mid sid c t stv inputJ
                      (((j.get? "state").getD Json.null).get? "time")) := by
                  simp only [sanitizePartRow, heqType, hc, htl, hss,
                    Option.some_bind, hstv, hgi]
                  rw [if_neg (by simp [h1, h2, h3]),
                    if_pos (isObjLike_of_get? heqType), if_pos hStObj,
                    if_pos ⟨hcall, htool, hinp⟩]
                rw [hval]
                rfl
          case _ => exact absurd hstat (by simp)
        case _ => exact absurd htool (by simp)
      case _ => exact absurd hcall (by simp)
    case _ => exact absurd ht (by simp)
  · intro st mid j
    unfold readToolPartsForMessageF
    cases hd : partDir? st mid with
    | none => simp
    | some files =>
        simp only [Option.getD_some]
        rw [List.mem_filterMap]
        constructor
        · rintro ⟨f, hf, hg⟩
          have hf' := (jsSort_mem _ _ _).mp hf
          rw [List.mem_filter] at hf'
          obtain ⟨hmem, hjson⟩ := hf'
          cases hc : f.content with
          | none => rw [hc] at hg; exact Option.noConfusion hg
          | some jv =>
              rw [hc] at hg
              change (if filesPartAccepted jv = true then some jv
                else none) = some j at hg
              by_cases hacc : filesPartAccepted jv = true
              · rw [if_pos hacc] at hg
                cases hg
                exact ⟨f, hmem, hjson, hc, hacc⟩
              · rw [if_neg hacc] at hg
                exact Option.noConfusion hg
        · rintro ⟨f, hmem, hjson, hc, hacc⟩
          refine ⟨f, ?_, ?_⟩
          · exact (jsSort_mem _ _ _).mpr
              (List.mem_filter.mpr ⟨hmem, hjson⟩)
          · rw [hc]
            change (if filesPartAccepted j = true then some j
              else none) = some j
            rw [if_pos hacc]

/-- A part payload the files reader accepts although it fails the claim's
checks: empty `tool`, no `callID`, no `state.status`, no `state.input`. -/
def c7badPart : Json :=
  .obj [("type", .str "tool"), ("tool", .str ""), ("state", .obj [])]

def c7st : FilesStorage :=
  { sessionMetas := []
    messageDirs := []
    partDirs := [("m1", [{ name := "a.json", content := some c7badPart }])] }

/-- C7 counterexample: the files backend surfaces a tool-part row that the
claim's acceptance conditions reject (no non-empty `callID`, no known
`state.status`, no object `state.input`). -/
theorem c7_tool_part_sanitation_counterexample :
    (readToolPartsForMessageF c7st "m1").length = 1
    ∧ (readToolPartsForMessageF c7st "m1").all claimToolPartOk = false := by
  refine ⟨by decide, by decide⟩

def c7goodRow : PartRow :=
  { id := some "p1", messageId := some "m1", sessionId := some "s",
    timeCreated := some 1,
    data := some (toolPartJson "c1" "bash" "running") }

/-- C7 witness: a fully well-formed row is accepted by the sqlite
sanitizer. -/
theorem c7_tool_part_sanitation_witness :
    (sanitizePartRow c7goodRow).isSome = true :=
  c7_tool_part_sanitation.2.1 c7goodRow (by decide)

/-! ## C5 -/

/-- One unfolding step of the scan loop. -/
theorem bgRowsLoop_cons (ctx : BgCtx) (pbm : String → List StoredToolPart)
    (m : StoredMessageMeta) (rest : List StoredMessageMeta)
    (acc : List BackgroundTaskRow) :
    bgRowsLoop ctx pbm (m :: rest) acc =
      if 50 ≤ (acc ++ bgRowsForMessage ctx pbm m).length
      then acc ++ bgRowsForMessage ctx pbm m
      else bgRowsLoop ctx pbm rest (acc ++ bgRowsForMessage ctx pbm m) :=
  rfl

/-- The largest number of rows any single scanned message contributes. -/
def maxMsgContribution (ctx : BgCtx) (pbm : String → List StoredToolPart)
    (metas : List StoredMessageMeta) : Nat :=
  metas.foldr
    (fun m acc => Nat.max (bgRowsForMessage ctx pbm m).length acc) 0

theorem maxMsgContribution_le {ctx : BgCtx}
    {pbm : String → List StoredToolPart} {m : StoredMessageMeta}
    {metas : List StoredMessageMeta} (h : m ∈ metas) :
    (bgRowsForMessage ctx pbm m).length ≤
      maxMsgContribution ctx pbm metas := by
  induction metas with
  | nil => cases h
  | cons x xs ih =>
      rcases List.mem_cons.mp h with rfl | h'
      · exact Nat.le_max_left _ _
      · exact le_trans (ih h') (Nat.le_max_right _ _)

/-- The loop processes a prefix of the messages whole-message-wise, stops
only after reaching 50 rows, and its output exceeds 49 by at most one
message's contribution. -/
theorem bgRowsLoop_spec (ctx : BgCtx) (pbm : String → List StoredToolPart) :
    ∀ (msgs : List StoredMessageMeta) (acc : List BackgroundTaskRow),
      acc.length ≤ 49 →
      ∃ p sfx, msgs = p ++ sfx
        ∧ bgRowsLoop ctx pbm msgs acc =
            acc ++ (p.map (bgRowsForMessage ctx pbm)).flatten
        ∧ (sfx ≠ [] → 50 ≤ (bgRowsLoop ctx pbm msgs acc).length)
        ∧ (bgRowsLoop ctx pbm msgs acc).length ≤
            49 + maxMsgContribution ctx pbm msgs := by
  intro msgs
  induction msgs with
  | nil =>
      intro acc hacc
      refine ⟨[], [], rfl, by simp [bgRowsLoop], by simp, ?_⟩
      simpa [bgRowsLoop, maxMsgContribution] using hacc
  | cons m rest ih =>
      intro acc hacc
      by_cases hcap : 50 ≤ (acc ++ bgRowsForMessage ctx pbm m).length
      · refine ⟨[m], rest, by simp, ?_, ?_, ?_⟩
        · rw [bgRowsLoop_cons, if_pos hcap]
          simp
        · intro _
          rw [bgRowsLoop_cons, if_pos hcap]
          simpa using hcap
        · rw [bgRowsLoop_cons, if_pos hcap]
          have h1 : (bgRowsForMessage ctx pbm m).length ≤
              maxMsgContribution ctx pbm (m :: rest) :=
            maxMsgContribution_le (by simp)
          simp only [List.length_append]
          omega
      · have hle : (acc ++ bgRowsForMessage ctx pbm m).length ≤ 49 := by
          omega
        obtain ⟨p, sfx, hdecomp, heq, hsfx, hbound⟩ := ih _ hle
        refine ⟨m :: p, sfx, by simp [hdecomp], ?_, ?_, ?_⟩
        · rw [bgRowsLoop_cons, if_neg hcap, heq]
          simp [List.append_assoc]
        · intro hne
          rw [bgRowsLoop_cons, if_neg hcap]
          exact hsfx hne
        · rw [bgRowsLoop_cons, if_neg hcap]
          have hmono : maxMsgContribution ctx pbm rest ≤
              maxMsgContribution ctx pbm (m :: rest) :=
            Nat.le_max_right _ _
          omega

/-- C5 (amended): `deriveBackgroundTasksSqlite` scans a newest-first prefix
of the main-session messages whole-message-wise and stops only once at
least 50 rows exist — so older delegation calls beyond that point produce
no rows, but the output itself is bounded by 49 plus the contribution of
the message that crossed the cap, and can exceed 50. -/
theorem c5_background_cap :
    ∀ (db : SqliteDb) (sid : String) (now : Int),
      ∃ p sfx,
        jsSort cmpMsgCreatedDesc (sqliteSessionMessages db sid) = p ++ sfx
        ∧ deriveBackgroundTasksSqlite db sid now =
            (p.map (bgRowsForMessage (bgCtxOf db sid now)
              (mainPbm db sid))).flatten
        ∧ (sfx ≠ [] → 50 ≤ (deriveBackgroundTasksSqlite db sid now).length)
        ∧ (deriveBackgroundTasksSqlite db sid now).length ≤
            49 + maxMsgContribution (bgCtxOf db sid now) (mainPbm db sid)
              (jsSort cmpMsgCreatedDesc (sqliteSessionMessages db sid)) := by
  intro db sid now
  have h := bgRowsLoop_spec (bgCtxOf db sid now) (mainPbm db sid)
    (jsSort cmpMsgCreatedDesc (sqliteSessionMessages db sid)) [] (by simp)
  simpa [deriveBackgroundTasksSqlite] using h

/-- A well-formed background `task` part payload. -/
def taskPartJson (callID : String) : Json :=
  .obj [("type", .str "tool"), ("callID", .str callID),
        ("tool", .str "task"),
        ("state", .obj [("status", .str "completed"),
          ("input", .obj [("run_in_background", .bool true),
                          ("description", .str "d")])])]

/-- C5 counterexample state: one message carrying 51 delegation parts. -/
def c5db : SqliteDb :=
  { sessions := []
    messages := [
      { id := some "m1", sessionId := some "main",
        timeCreated := some 1000, data := some (msgJson "user" 1000) }]
    parts := (List.range 51).map fun i =>
      { id := some ("p" ++ pad2 i), messageId := some "m1",
        sessionId := some "main", timeCreated := some (i : Int),
        data := some (taskPartJson ("c" ++ pad2 i)) } }

/-- C5 counterexample: the derivation returns 51 rows — more than the 50
the claim allows — because the cap is only checked between messages. -/
theorem c5_background_cap_counterexample :
    (deriveBackgroundTasksSqlite c5db "main" 0).length = 51 := by decide

/-- C5 witness: the amended decomposition at the 51-part state. -/
theorem c5_background_cap_witness :
    ∃ p sfx,
      jsSort cmpMsgCreatedDesc (sqliteSessionMessages c5db "main") = p ++ sfx
      ∧ deriveBackgroundTasksSqlite c5db "main" 0 =
          (p.map (bgRowsForMessage (bgCtxOf c5db "main" 0)
            (mainPbm c5db "main"))).flatten
      ∧ (sfx ≠ [] → 50 ≤ (deriveBackgroundTasksSqlite c5db "main" 0).length)
      ∧ (deriveBackgroundTasksSqlite c5db "main" 0).length ≤
          49 + maxMsgContribution (bgCtxOf c5db "main" 0) (mainPbm c5db "main")
            (jsSort cmpMsgCreatedDesc (sqliteSessionMessages c5db "main")) :=
  c5_background_cap c5db "main" 0

/-! ## C9 -/

theorem mkBgRow_prop (ctx : BgCtx) (cid d a : String) (st : Int)
    (bg : Option String) :
    ((mkBgRow ctx cid d a st bg).sessionId = none ↔
      (mkBgRow ctx cid d a st bg).status = BgStatus.queued)
    ∧ ((mkBgRow ctx cid d a st bg).sessionId = none ↔
      (mkBgRow ctx cid d a st bg).toolCalls = none) := by
  cases bg with
  | none => simp [mkBgRow]
  | some b =>
      simp only [mkBgRow]
      split_ifs <;> simp_all

theorem bgRowForPart_shape {ctx : BgCtx} {c : Int} {part : StoredToolPart}
    {r : BackgroundTaskRow} (h : bgRowForPart ctx c part = some r) :
    ∃ cid d a st bg, r = mkBgRow ctx cid d a st bg := by
  simp only [bgRowForPart] at h
  split at h
  · exact Option.noConfusion h
  · split at h
    case _ rb =>
      split at h
      case isTrue => exact Option.noConfusion h
      case isFalse =>
        split at h
        case _ => exact Option.noConfusion h
        case _ d hd =>
          exact ⟨_, _, _, _, _, (Option.some.injEq _ _ |>.mp h).symm⟩
    case _ => exact Option.noConfusion h

theorem bgRowsLoop_mem {ctx : BgCtx} {pbm : String → List StoredToolPart} :
    ∀ {msgs : List StoredMessageMeta} {acc : List BackgroundTaskRow}
      {r : BackgroundTaskRow}, r ∈ bgRowsLoop ctx pbm msgs acc →
      r ∈ acc ∨ ∃ m ∈ msgs, r ∈ bgRowsForMessage ctx pbm m := by
  intro msgs
  induction msgs with
  | nil =>
      intro acc r h
      exact Or.inl (by simpa [bgRowsLoop] using h)
  | cons m rest ih =>
      intro acc r h
      rw [bgRowsLoop_cons] at h
      by_cases hcap : 50 ≤ (acc ++ bgRowsForMessage ctx pbm m).length
      · rw [if_pos hcap] at h
        rcases List.mem_append.mp h with h' | h'
        · exact Or.inl h'
        · exact Or.inr ⟨m, by simp, h'⟩
      · rw [if_neg hcap] at h
        rcases ih h with h' | ⟨m', hm', hr⟩
        · rcases List.mem_append.mp h' with h'' | h''
          · exact Or.inl h''
          · exact Or.inr ⟨m, by simp, h''⟩
        · exact Or.inr ⟨m', by simp [hm'], hr⟩

/-- C9: every `BackgroundTaskRow` the sqlite derivation produces has
`sessionId = null` exactly when its status is `queued` and exactly when
its `toolCalls` is `null`; whenever a child session is resolved,
`toolCalls` is a (non-negative) natural count. -/
theorem c9_row_invariant :
    ∀ (db : SqliteDb) (sid : String) (now : Int) (r : BackgroundTaskRow),
      r ∈ deriveBackgroundTasksSqlite db sid now →
      ((r.sessionId = none ↔ r.status = BgStatus.queued)
        ∧ (r.sessionId = none ↔ r.toolCalls = none)
        ∧ (∀ b, r.sessionId = some b → ∃ n : Nat, r.toolCalls = some n)) := by
  intro db sid now r hr
  unfold deriveBackgroundTasksSqlite at hr
  rcases bgRowsLoop_mem hr with hacc | ⟨m, _, hrow⟩
  · exact absurd hacc (by simp)
  · rw [bgRowsForMessage, List.mem_filterMap] at hrow
    obtain ⟨part, _, hpart⟩ := hrow
    obtain ⟨cid, d, a, st, bg, rfl⟩ := bgRowForPart_shape hpart
    have hp := mkBgRow_prop (bgCtxOf db sid now) cid d a st bg
    refine ⟨hp.1, hp.2, ?_⟩
    intro b hb
    cases htc : (mkBgRow (bgCtxOf db sid now) cid d a st bg).toolCalls with
    | none =>
        have hcontra := hp.2.mpr htc
        rw [hb] at hcontra
        exact Option.noConfusion hcontra
    | some n => exact ⟨n, rfl⟩

/-- C9 witness state: one delegation part that stays queued. -/
def c9db : SqliteDb :=
  { sessions := []
    messages := [
      { id := some "m1", sessionId := some "main",
        timeCreated := some 1000, data := some (msgJson "user" 1000) }]
    parts := [
      { id := some "p1", messageId := some "m1", sessionId := some "main",
        timeCreated := some 1, data := some (taskPartJson "c1") }] }

/-- The queued row the C9 witness state produces. -/
def c9row : BackgroundTaskRow :=
  { id := "c1", description := "d", agent := "unknown",
    status := .queued, toolCalls := none, lastTool := none,
    lastModel := none, timeline := "1970-01-01T00:00:01Z: 0s",
    sessionId := none }

/-- C9 witness: the invariant holds at the concrete queued row. -/
theorem c9_row_invariant_witness :
    (c9row.sessionId = none ↔ c9row.status = BgStatus.queued)
    ∧ (c9row.sessionId = none ↔ c9row.toolCalls = none)
    ∧ (∀ b, c9row.sessionId = some b → ∃ n : Nat, c9row.toolCalls = some n) :=
  c9_row_invariant c9db "main" 0 c9row (by decide)

/-- C3 counterexample: the files implementation reports `idle` (not
`thinking`) for a quiet session whose newest message is an assistant
message with `time.completed` absent — the files-backend state machine has
no `thinking` state. -/
theorem c3_thinking_rule_counterexample :
    (filesRecentMsgs c3st "s").head? = some exAssistantMsg
    ∧ claimAnyActivePartF c3st "s" = false
    ∧ (getMainSessionViewF c3st "s" none 50000).status = MainStatus.idle := by
  refine ⟨by decide, by decide, by decide⟩

/-! ## C2 -/

theorem encodeMainSessionView_agent (v : MainSessionView) :
    (encodeMainSessionView v).hasRedactedKey
      = v.agent.hasRedactedKey := by
  cases v with
  | mk agent currentTool currentModel lastUpdated sessionLabel status =>
      cases currentTool <;> cases currentModel <;> cases lastUpdated <;>
        exact Bool.or_false _

theorem encodeBackgroundTaskRow_clean (r : BackgroundTaskRow) :
    (encodeBackgroundTaskRow r).hasRedactedKey = false := by
  cases r with
  | mk id description agent status toolCalls lastTool lastModel timeline
      sessionId =>
      cases toolCalls <;> cases lastTool <;> cases lastModel
        <;> cases sessionId <;> rfl

theorem encodeToolCallRow_clean (r : ToolCallRow) :
    (encodeToolCallRow r).hasRedactedKey = false := by
  cases r with
  | mk sessionId messageId callId tool status createdAtMs =>
      cases createdAtMs <;> rfl

/-- C2 (corrected): every background-task row and every tool-call row
serializes to JSON containing no key named `prompt`, `input`, `output`,
`error` or `state` at any nesting depth — tool-part `state.input`/
`state.output`/`state.error` are never materialized into them. The
main-session-view part of the claim fails: `readRecentMessageMetasSqlite`
spreads the raw payload (`...rec`), so the view's `agent` is the raw
`agent` value and the serialized view contains a forbidden key exactly
when that payload does (all other view fields are clean). The token-usage
part is false outright: its rows and totals carry their numeric
aggregates under the literal keys `input`, `output`, `reasoning`,
`cacheRead`, `cacheWrite` and `total` (the `TokenUsageRow` shape of
src/token-usage-ui.tsx). -/
theorem c2_redaction :
    ∀ (db : SqliteDb) (sid : String) (meta : Option SessionMetadata)
      (now : Int) (mm mc : Nat),
      ((encodeMainSessionView
          (getMainSessionViewSqlite db sid meta now)).hasRedactedKey
        = (getMainSessionViewSqlite db sid meta now).agent.hasRedactedKey)
      ∧ (∀ r ∈ deriveBackgroundTasksSqlite db sid now,
          (encodeBackgroundTaskRow r).hasRedactedKey = false)
      ∧ (∀ r ∈ (deriveToolCallsSqlite mm mc db sid).toolCalls,
          (encodeToolCallRow r).hasRedactedKey = false) :=
  fun _ _ _ _ _ _ =>
    ⟨encodeMainSessionView_agent _,
     fun r _ => encodeBackgroundTaskRow_clean r,
     fun r _ => encodeToolCallRow_clean r⟩

/-- C2 state: one assistant message carrying provider/model/token metadata
and one delegation tool part. -/
def c2msgJson : Json :=
  .obj [("role", .str "assistant"),
        ("time", .obj [("created", .num 1000), ("completed", .num 1500)]),
        ("providerID", .str "openai"),
        ("modelID", .str "gpt-5"),
        ("tokens", .obj [("input", .num 4), ("output", .num 2),
          ("reasoning", .num 1),
          ("cache", .obj [("read", .num 3), ("write", .num 1)])])]

def c2db : SqliteDb :=
  { sessions := [SessionRow.mk (some "s") (some "p") none (some "d") none
      (some 0) (some 0)]
    messages := [
      { id := some "m1", sessionId := some "s", timeCreated := some 1000,
        data := some c2msgJson }]
    parts := [
      { id := some "p1", messageId := some "m1", sessionId := some "s",
        timeCreated := some 1, data := some (taskPartJson "c1") }] }

/-- The queued background row the C2 state produces. -/
def c2bgRow : BackgroundTaskRow :=
  { id := "c1", description := "d", agent := "unknown",
    status := .queued, toolCalls := none, lastTool := none,
    lastModel := none, timeline := "1970-01-01T00:00:01Z: 0s",
    sessionId := none }

/-- The tool-call row the C2 state produces. -/
def c2toolRow : ToolCallRow :=
  { sessionId := "s", messageId := "m1", callId := "c1", tool := "task",
    status := .completed, createdAtMs := some 1000 }

/-- The token-usage row the C2 state produces. -/
def c2usageRow : TokenUsageRow :=
  { model := "openai/gpt-5", tokIn := 4, tokOut := 2, reasoning := 1,
    cacheRead := 3, cacheWrite := 1, total := 11 }

/-- C2 witness: the redaction statement at the concrete state. -/
theorem c2_redaction_witness :
    ((encodeMainSessionView
        (getMainSessionViewSqlite c2db "s" none 1000)).hasRedactedKey
      = (getMainSessionViewSqlite c2db "s" none 1000).agent.hasRedactedKey)
    ∧ ((encodeBackgroundTaskRow c2bgRow).hasRedactedKey = false)
    ∧ ((encodeToolCallRow c2toolRow).hasRedactedKey = false) :=
  ⟨(c2_redaction c2db "s" none 1000 200 50).1,
   (c2_redaction c2db "s" none 1000 200 50).2.1 c2bgRow (by decide),
   (c2_redaction c2db "s" none 1000 200 50).2.2 c2toolRow (by decide)⟩

/-- C2 counterexample state: an assistant message whose raw `agent`
payload is the object `{"input": "x"}`; it passes sanitation and flows
verbatim into the derived view. -/
def c2agentJson : Json :=
  .obj [("role", .str "assistant"),
        ("time", .obj [("created", .num 1000)]),
        ("agent", .obj [("input", .str "x")])]

def c2vdb : SqliteDb :=
  { sessions := []
    messages := [
      { id := some "m1", sessionId := some "s", timeCreated := some 1000,
        data := some c2agentJson }]
    parts := [] }

/-- C2 counterexample: the derived main-session view serializes with a
forbidden `input` key when the newest message carries a non-string
`agent` payload, and the token-usage derivation produces a row whose
serialization carries the redacted keys `input` and `output`. -/
theorem c2_redaction_counterexample :
    (encodeMainSessionView
        (getMainSessionViewSqlite c2vdb "s" none 1000)).hasRedactedKey = true
    ∧ (deriveTokenUsageSqlite c2db (some "s") []).rows = [c2usageRow]
    ∧ (encodeTokenUsageRow c2usageRow).hasRedactedKey = true := by
  refine ⟨by decide, by decide, by decide⟩


/-- C8 scenario db: three single-tool-part messages at
`created = 1000, 1001, 2500`. -/
def c8db : SqliteDb :=
  { sessions := []
    messages := [
      { id := some "ma", sessionId := some "s", timeCreated := some 1000,
        data := some (msgJson "user" 1000) },
      { id := some "mb", sessionId := some "s", timeCreated := some 1001,
        data := some (msgJson "user" 1001) },
      { id := some "mc", sessionId := some "s", timeCreated := some 2500,
        data := some (msgJson "user" 2500) }]
    parts := [
      { id := some "pa", messageId := some "ma", sessionId := some "s",
        timeCreated := some 1,
        data := some (toolPartJson "ca" "bash" "completed") },
      { id := some "pb", messageId := some "mb", sessionId := some "s",
        timeCreated := some 2,
        data := some (toolPartJson "cb" "bash" "completed") },
      { id := some "pc", messageId := some "mc", sessionId := some "s",
        timeCreated := some 3,
        data := some (toolPartJson "cc" "bash" "completed") }] }

/-! ## C8 -/

/-- C8 (confirmed): the time-series payload anchors at
`anchorMs = floor(nowMs / bucketMs) * bucketMs` with
`floor(windowMs / bucketMs)` buckets; the message scan only counts
messages inside `[anchorMs - windowMs, anchorMs)` — a message at or after
the anchor is skipped and a message before the window start stops the
(newest-first) scan; and on a main session with single-tool-part messages
at `created = 1000, 1001, 2500`, with `bucketMs = 2000`,
`windowMs = 10000`, `now = 10000`, the overall-main series is
`[2, 1, 0, 0, 0]` (count 2 in bucket 0, count 1 in bucket 1, zero
elsewhere). -/
theorem c8_timeseries_window :
    (∀ (db : SqliteDb) (msid : Option String) (nowMs windowMs bucketMs : Int),
       (deriveTimeSeriesActivitySqlite db msid nowMs windowMs
           bucketMs).anchorMs = jsFloorDiv nowMs bucketMs * bucketMs
       ∧ (deriveTimeSeriesActivitySqlite db msid nowMs windowMs
           bucketMs).buckets = jsFloorDiv windowMs bucketMs
       ∧ (deriveTimeSeriesActivitySqlite db msid nowMs windowMs
           bucketMs).serverNowMs = nowMs)
    ∧ (∀ (pbm : String → List StoredToolPart)
        (startMs anchorMs bucketMs : Int) (ipa ib : Bool)
        (meta : StoredMessageMeta) (rest : List StoredMessageMeta)
        (st : TsBuckets),
        (meta.created < startMs →
          tsScanMessages pbm startMs anchorMs bucketMs ipa ib
            (meta :: rest) st = st)
        ∧ (startMs ≤ meta.created → anchorMs ≤ meta.created →
          tsScanMessages pbm startMs anchorMs bucketMs ipa ib
            (meta :: rest) st
            = tsScanMessages pbm startMs anchorMs bucketMs ipa ib rest st))
    ∧ (deriveTimeSeriesActivitySqlite c8db (some "s") 10000 10000
          2000).series
        = [TimeSeriesSeries.mk "overall-main" "Overall" "muted"
             [2, 1, 0, 0, 0],
           TimeSeriesSeries.mk "agent:sisyphus" "Sisyphus" "teal"
             [0, 0, 0, 0, 0],
           TimeSeriesSeries.mk "agent:prometheus" "Prometheus" "red"
             [0, 0, 0, 0, 0],
           TimeSeriesSeries.mk "agent:atlas" "Atlas" "green"
             [0, 0, 0, 0, 0],
           TimeSeriesSeries.mk "background-total" "Background tasks (total)"
             "muted" [0, 0, 0, 0, 0]] := by
  refine ⟨?_, ?_, by decide⟩
  · intro db msid nowMs windowMs bucketMs
    refine ⟨?_, ?_, ?_⟩ <;> simp [deriveTimeSeriesActivitySqlite]
  · intro pbm startMs anchorMs bucketMs ipa ib meta rest st
    constructor
    · intro h
      rw [tsScanMessages, if_pos h]
    · intro h1 h2
      rw [tsScanMessages, if_neg (by omega), if_pos h2]

/-- A message metadata record past the anchor of the C8 witness window. -/
def c8metaHi : StoredMessageMeta :=
  { id := "m", sessionID := "s", role := .user, created := 20000,
    completed := none, agent := none, providerID := none, modelID := none,
    tokens := none }

/-- A message metadata record before the C8 witness window start. -/
def c8metaLow : StoredMessageMeta :=
  { id := "m", sessionID := "s", role := .user, created := -5,
    completed := none, agent := none, providerID := none, modelID := none,
    tokens := none }

/-- Empty part grouping for the C8 witness. -/
def c8pbm0 : String → List StoredToolPart := fun _ => []

/-- Empty bucket state for the C8 witness. -/
def c8buckets0 : TsBuckets :=
  { overall := [], sisyphus := [], prometheus := [], atlas := [],
    background := [] }

/-- C8 witness: the window rules at concrete out-of-window messages. -/
theorem c8_timeseries_window_witness :
    tsScanMessages c8pbm0 0 10000 2000 true false [c8metaLow] c8buckets0
        = c8buckets0
    ∧ tsScanMessages c8pbm0 0 10000 2000 true false [c8metaHi] c8buckets0
        = tsScanMessages c8pbm0 0 10000 2000 true false [] c8buckets0 :=
  ⟨(c8_timeseries_window.2.1 c8pbm0 0 10000 2000 true false c8metaLow []
      c8buckets0).1 (by decide),
   (c8_timeseries_window.2.1 c8pbm0 0 10000 2000 true false c8metaHi []
      c8buckets0).2 (by decide) (by decide)⟩


/-! ## C10 -/

/-- The tone drawn for each agent. -/
def toneOfKey : AgentKey → AgentTone
  | .sisyphus => .teal
  | .prometheus => .red
  | .atlas => .green
  | .other => .sand

/-- The agent behind each tone. -/
def keyOfTone : AgentTone → AgentKey
  | .teal => .sisyphus
  | .red => .prometheus
  | .green => .atlas
  | .sand => .other

theorem buildSegments_tones (ch : ℚ) (h : AgentKey → Int) :
    List.Sublist ((buildSegments ch h).map StackedSegment.tone)
      [AgentTone.teal, AgentTone.red, AgentTone.green, AgentTone.sand] := by
  simp only [buildSegments]
  split_ifs <;> simp

theorem buildSegments_mem {ch : ℚ} {h : AgentKey → Int}
    {seg : StackedSegment} (hs : seg ∈ buildSegments ch h) :
    0 < h (keyOfTone seg.tone) := by
  simp only [buildSegments] at hs
  split_ifs at hs <;> simp_all [keyOfTone] <;>
    rcases hs with rfl | rfl | rfl | rfl <;> simp_all [keyOfTone]

theorem initialHeight_zero {counts : AgentCounts} {sm ch : ℚ} {k : AgentKey}
    (hz : sanitizedOf counts k = 0) : initialHeight counts sm ch k = 0 := by
  simp [initialHeight, hz]

theorem reduceFold_preserve (excess : ℚ) (tw : Int) :
    ∀ (ws : List (AgentKey × Int)) (h : AgentKey → Int) (rem : ℚ)
      (k : AgentKey), (∀ w ∈ ws, w.1 ≠ k) →
      reduceFold excess tw ws h rem k = h k := by
  intro ws
  induction ws with
  | nil => intro h rem k _; rfl
  | cons w rest ih =>
      intro h rem k hk
      obtain ⟨kw, cw⟩ := w
      rw [reduceFold]
      split
      · rfl
      · rw [ih _ _ k (fun w hw => hk w (List.mem_cons_of_mem _ hw))]
        exact if_neg fun he =>
          hk (kw, cw) (List.mem_cons_self _ _) he.symm

theorem trimPick_mem {ws : List (AgentKey × Int)} {h : AgentKey → Int}
    {k : AgentKey} (hp : trimPick ws h = some k) : ∃ w ∈ ws, w.1 = k := by
  unfold trimPick at hp
  obtain ⟨p, hps, hpk⟩ := Option.map_eq_some'.mp hp
  have hmem := List.mem_of_mem_head? (Option.mem_def.mpr hps)
  rw [jsSort_mem] at hmem
  obtain ⟨hmap, _⟩ := List.mem_filter.mp hmem
  obtain ⟨w, hw, hweq⟩ := List.mem_map.mp hmap
  exact ⟨w, hw, by rw [← hpk, ← hweq]⟩

theorem trimLoop_preserve (ws : List (AgentKey × Int)) (ch : ℚ)
    (k : AgentKey) (hk : ∀ w ∈ ws, w.1 ≠ k) (h : AgentKey → Int) :
    trimLoop ws ch h k = h k := by
  by_cases htr : ch < (sumHeights h : ℚ)
  · rw [trimLoop, dif_pos htr]
    cases hpick : trimPick ws h with
    | none => simp [hpick]
    | some kp =>
        simp only [hpick]
        rw [trimLoop_preserve ws ch k hk (updH h kp (h kp - 1))]
        obtain ⟨w, hw, hwk⟩ := trimPick_mem hpick
        exact if_neg fun he => hk w hw (hwk.trans he.symm)
  · rw [trimLoop, dif_neg htr]
termination_by (sumHeights h - Int.ceil ch + 1).toNat
decreasing_by
  have hsum : sumHeights (updH h kp (h kp - 1)) = sumHeights h - 1 := by
    cases kp <;> simp [sumHeights, updH] <;> ring
  have hceil : Int.ceil ch ≤ sumHeights h :=
    Int.ceil_le.mpr (le_of_lt htr)
  rw [hsum]
  omega

theorem overflowAdjust_zero (ch : ℚ) (h0 : AgentKey → Int) (k : AgentKey)
    (hk : h0 k = 0) : overflowAdjust ch h0 k = 0 := by
  simp only [overflowAdjust]
  split
  · split
    case isTrue hne =>
        have hnotin :
            ∀ w ∈ ([AgentKey.sisyphus, .prometheus, .atlas, .other].map
                (fun k => (k, h0 k))).filter (fun w => w.2 > 0),
              w.1 ≠ k := by
          intro w hw he
          obtain ⟨hmap, hpos⟩ := List.mem_filter.mp hw
          obtain ⟨k', _, hkeq⟩ := List.mem_map.mp hmap
          subst hkeq
          have hk'k : k' = k := he
          subst hk'k
          simp [hk] at hpos
        rw [trimLoop_preserve _ _ _ hnotin,
          reduceFold_preserve _ _ _ _ _ _ hnotin, hk]
    case isFalse => exact hk
  · exact hk

theorem computeStackedSegments_eq {counts : AgentCounts} {sm ch : ℚ}
    (h0 : ¬(ch ≤ 0 ∨ sm ≤ 0))
    (ht : ¬(sanitizedOf counts .sisyphus + sanitizedOf counts .prometheus
      + sanitizedOf counts .atlas + sanitizedOf counts .other = 0)) :
    computeStackedSegments counts sm ch
      = buildSegments ch (overflowAdjust ch (initialHeight counts sm ch)) := by
  simp [computeStackedSegments, h0, ht]

/-- C10 (confirmed): `computeStackedSegments` returns the empty list
whenever `chartHeight ≤ 0`, `scaleMax ≤ 0`, or every sanitized agent count
(non-finite and negative counts coerced to 0) is zero; in every result the
segment tones appear in the fixed bottom-to-top order teal (sisyphus), red
(prometheus), green (atlas), sand (other); and when an agent's sanitized
count is not positive, no segment of its tone is emitted. -/
theorem c10_stacked :
    (∀ (counts : AgentCounts) (scaleMax chartHeight : ℚ),
       (chartHeight ≤ 0 ∨ scaleMax ≤ 0 ∨ ∀ k, sanitizedOf counts k = 0) →
       computeStackedSegments counts scaleMax chartHeight = [])
    ∧ (∀ (counts : AgentCounts) (scaleMax chartHeight : ℚ),
       List.Sublist
         ((computeStackedSegments counts scaleMax chartHeight).map
           StackedSegment.tone)
         [AgentTone.teal, AgentTone.red, AgentTone.green, AgentTone.sand])
    ∧ (∀ (counts : AgentCounts) (scaleMax chartHeight : ℚ) (k : AgentKey),
       ¬0 < sanitizedOf counts k →
       (computeStackedSegments counts scaleMax chartHeight).filter
         (fun s => s.tone == toneOfKey k) = []) := by
  refine ⟨?_, ?_, ?_⟩
  · intro counts sm ch h
    by_cases h0 : ch ≤ 0 ∨ sm ≤ 0
    · simp [computeStackedSegments, h0]
    · rcases h with h | h | hz
      · exact absurd (Or.inl h) h0
      · exact absurd (Or.inr h) h0
      · simp [computeStackedSegments, h0, hz]
  · intro counts sm ch
    by_cases h0 : ch ≤ 0 ∨ sm ≤ 0
    · simp [computeStackedSegments, h0]
    · by_cases ht : sanitizedOf counts .sisyphus
          + sanitizedOf counts .prometheus + sanitizedOf counts .atlas
          + sanitizedOf counts .other = 0
      · simp [computeStackedSegments, h0, ht]
      · rw [computeStackedSegments_eq h0 ht]
        exact buildSegments_tones _ _
  · intro counts sm ch k hk
    have hz : sanitizedOf counts k = 0 :=
      le_antisymm (not_lt.mp hk)
        (le_max_left 0 ((countOf counts k).getD 0))
    by_cases h0 : ch ≤ 0 ∨ sm ≤ 0
    · simp [computeStackedSegments, h0]
    · by_cases ht : sanitizedOf counts .sisyphus
          + sanitizedOf counts .prometheus + sanitizedOf counts .atlas
          + sanitizedOf counts .other = 0
      · simp [computeStackedSegments, h0, ht]
      · rw [computeStackedSegments_eq h0 ht, List.filter_eq_nil_iff]
        intro seg hseg hton
        have hpos := buildSegments_mem hseg
        have hteq : seg.tone = toneOfKey k := by
          simpa using hton
        rw [hteq] at hpos
        have hkk : keyOfTone (toneOfKey k) = k := by cases k <;> rfl
        rw [hkk] at hpos
        have hoz := overflowAdjust_zero ch (initialHeight counts sm ch) k
          (initialHeight_zero hz)
        omega

/-- C10 witness counts: one positive agent, the rest non-finite. -/
def c10counts : AgentCounts :=
  { sisyphus := some 10, prometheus := none, atlas := none, other := none }

/-- C10 witness: the empty-result rule at `chartHeight = 0` and the
absent-tone rule for an agent with sanitized count 0. -/
theorem c10_stacked_witness :
    computeStackedSegments c10counts 20 0 = []
    ∧ (computeStackedSegments c10counts 20 100).filter
        (fun s => s.tone == toneOfKey AgentKey.prometheus) = [] :=
  ⟨c10_stacked.1 c10counts 20 0 (Or.inl (by decide)),
   c10_stacked.2.2 c10counts 20 100 AgentKey.prometheus (by decide)⟩


end OmoDash
